import Mathlib

/-!
Shallow embedding of `src/agent1.py` (class `Agent1`): a producer-verification
pipeline over FSSAI certificate text.  Text is modelled as `List Char` (the
text the external TextExtractor collaborator produced); regular-expression
searches from the source are hand-rolled as deterministic scanners that follow
the Python `re` backtracking behaviour of each concrete pattern; Python
`datetime` values are modelled as Gregorian day ordinals plus a
time-of-day tick count.  The embedding targets ASCII document text, matching
the ASCII character classes used by the source's patterns.
-/

namespace Agent1

/-! ## Python character classes and string helpers -/

/-- Python `\s` / `str.strip` whitespace set (ASCII scope). -/
def pyWs (c : Char) : Bool :=
  c == ' ' || c == '\t' || c == '\n' || c == '\r' || c == '\x0b' || c == '\x0c'

/-- ASCII decimal digit, Python `\d` (ASCII scope). -/
def pyDigit (c : Char) : Bool := '0' ≤ c && c ≤ '9'

/-- Python `\w` word character (ASCII scope): letter, digit or underscore. -/
def pyWord (c : Char) : Bool := c.isAlpha || pyDigit c || c == '_'

/-- Python `str.lower` (ASCII scope). -/
def pyLower (l : List Char) : List Char := l.map Char.toLower

/-- Python `str.upper` (ASCII scope). -/
def pyUpper (l : List Char) : List Char := l.map Char.toUpper

/-- Python `str.strip()`: drop leading and trailing whitespace. -/
def pyStrip (l : List Char) : List Char :=
  ((l.dropWhile pyWs).reverse.dropWhile pyWs).reverse

/-- State machine for Python `str.split()` with no argument: `acc` holds the
current word's characters in reverse. -/
def pySplitWsAux (acc : List Char) : List Char → List (List Char)
  | [] => if acc.isEmpty then [] else [acc.reverse]
  | c :: rest =>
    if pyWs c then
      if acc.isEmpty then pySplitWsAux [] rest
      else acc.reverse :: pySplitWsAux [] rest
    else pySplitWsAux (c :: acc) rest

/-- Python `str.split()` with no argument: whitespace-separated words. -/
def pySplitWs (l : List Char) : List (List Char) := pySplitWsAux [] l

/-- Python `' '.join(text.split())`: collapse whitespace runs to single spaces. -/
def pyJoinWords : List (List Char) → List Char
  | [] => []
  | [w] => w
  | w :: ws => w ++ ' ' :: pyJoinWords ws

/-- Normalize internal whitespace the way the source's
`' '.join(name.split())` does. -/
def normSpaces (l : List Char) : List Char := pyJoinWords (pySplitWs l)

/-- Does `pat` occur as a contiguous sublist starting at the head of `l`? -/
def startsWithSeq (pat l : List Char) : Bool :=
  match pat, l with
  | [], _ => true
  | _ :: _, [] => false
  | p :: ps, c :: cs => p == c && startsWithSeq ps cs

/-- Python `pat in text`: contiguous substring occurrence. -/
def containsSeq (l pat : List Char) : Bool :=
  match l with
  | [] => startsWithSeq pat []
  | _ :: rest => startsWithSeq pat l || containsSeq rest pat

/-- Case-insensitive substring occurrence, modelling
`re.search(literal, text, re.IGNORECASE)` for a plain literal. -/
def containsCi (l pat : List Char) : Bool := containsSeq (pyLower l) (pyLower pat)

/-- Fuel-driven core of Python `str.replace(old, new)`: left-to-right,
non-overlapping; the fuel only bounds the recursion (a match consumes at
least one character) and never runs out when it starts at the input's
length. -/
def pyReplaceFuel (old new : List Char) : Nat → List Char → List Char
  | 0, l => l
  | fuel + 1, l =>
    match l with
    | [] => []
    | c :: rest =>
      if 0 < old.length ∧ startsWithSeq old l then
        new ++ pyReplaceFuel old new fuel (l.drop old.length)
      else c :: pyReplaceFuel old new fuel rest

/-- Python `str.replace(old, new)` for a non-empty `old`. -/
def pyReplace (l old new : List Char) : List Char :=
  pyReplaceFuel old new l.length l

/-- Python `text.replace('\x00', '')`. -/
def removeNulls (l : List Char) : List Char := l.filter (fun c => c ≠ '\x00')

/-- Python `text.split('\n')`. -/
def splitLines : List Char → List (List Char)
  | [] => [[]]
  | c :: rest =>
    if c == '\n' then [] :: splitLines rest
    else
      match splitLines rest with
      | [] => [[c]]
      | l :: ls => (c :: l) :: ls

/-- Python `str.title()` (ASCII scope): a letter is uppercased when the
previous character is not a letter, lowercased otherwise. -/
def pyTitleAux (prevAlpha : Bool) : List Char → List Char
  | [] => []
  | c :: rest =>
    if c.isAlpha then
      (if prevAlpha then c.toLower else c.toUpper) :: pyTitleAux true rest
    else
      c :: pyTitleAux false rest

/-- Python `str.title()` (ASCII scope). -/
def pyTitle (l : List Char) : List Char := pyTitleAux false l

/-- First index (if any) at which `pat` occurs in `l`, modelling Python
`str.find` (returning `none` for `-1`). -/
def findSeqIdx (l pat : List Char) : Option Nat :=
  match l with
  | [] => if startsWithSeq pat [] then some 0 else none
  | _ :: rest =>
    if startsWithSeq pat l then some 0
    else (findSeqIdx rest pat).map (· + 1)

/-! ## Gregorian date arithmetic (models Python `datetime.date` ordinals) -/

/-- Gregorian leap-year test. -/
def isLeap (y : Nat) : Bool := (y % 4 == 0 && y % 100 != 0) || y % 400 == 0

/-- Days in a Gregorian month (month 1–12). -/
def daysInMonth (y m : Nat) : Nat :=
  if m == 2 then (if isLeap y then 29 else 28)
  else if m == 4 || m == 6 || m == 9 || m == 11 then 30
  else 31

/-- Day ordinal of a Gregorian date, counted from the epoch 0000-03-01
(shifted civil calendar, all supported dates give positive ordinals). -/
def dayOrdinal (y m d : Nat) : Nat :=
  let yShift : Nat := if m ≤ 2 then y - 1 else y
  let era : Nat := yShift / 400
  let yoe : Nat := yShift % 400
  let mp : Nat := if m > 2 then m - 3 else m + 9
  let doy : Nat := (153 * mp + 2) / 5 + (d - 1)
  let doe : Nat := yoe * 365 + yoe / 4 - yoe / 100 + doy
  era * 146097 + doe

/-- Inverse of `dayOrdinal`: Gregorian (year, month, day) of a day ordinal. -/
def civilFromOrdinal (z : Nat) : Nat × Nat × Nat :=
  let era := z / 146097
  let doe := z % 146097
  let yoe := (doe - doe / 1460 + doe / 36524 - doe / 146096) / 365
  let y0 := yoe + era * 400
  let doy := doe - (365 * yoe + yoe / 4 - yoe / 100)
  let mp := (5 * doy + 2) / 153
  let d := doy - (153 * mp + 2) / 5 + 1
  let m := if mp < 10 then mp + 3 else mp - 9
  (if m ≤ 2 then y0 + 1 else y0, m, d)

/-- Two-digit zero-padded decimal rendering. -/
def pad2 (n : Nat) : List Char :=
  [Char.ofNat ('0'.toNat + n / 10 % 10), Char.ofNat ('0'.toNat + n % 10)]

/-- Four-digit zero-padded decimal rendering. -/
def pad4 (n : Nat) : List Char :=
  [Char.ofNat ('0'.toNat + n / 1000 % 10), Char.ofNat ('0'.toNat + n / 100 % 10),
   Char.ofNat ('0'.toNat + n / 10 % 10), Char.ofNat ('0'.toNat + n % 10)]

/-- Python `datetime.strftime('%d/%m/%Y')` applied to a day ordinal. -/
def formatDMY (z : Nat) : List Char :=
  let c := civilFromOrdinal z
  pad2 c.2.2 ++ '/' :: pad2 c.2.1 ++ '/' :: pad4 c.1

/-- Numeric value of an ASCII digit character. -/
def digitVal (c : Char) : Nat := c.toNat - '0'.toNat

/-- Python `datetime.strptime(s, '%d/%m/%Y')` for a `\d{2}/\d{2}/\d{4}`-shaped
token (the only call-site inputs): returns the day ordinal, or `none` on
`ValueError` (month/day/year out of range). -/
def parseDMY (l : List Char) : Option Nat :=
  match l with
  | [d1, d2, s1, m1, m2, s2, y1, y2, y3, y4] =>
    if (s1 == '/' && s2 == '/' &&
        pyDigit d1 && pyDigit d2 && pyDigit m1 && pyDigit m2 &&
        pyDigit y1 && pyDigit y2 && pyDigit y3 && pyDigit y4) then
      let d := digitVal d1 * 10 + digitVal d2
      let m := digitVal m1 * 10 + digitVal m2
      let y := digitVal y1 * 1000 + digitVal y2 * 100 + digitVal y3 * 10 + digitVal y4
      if 1 ≤ y && 1 ≤ m && m ≤ 12 && 1 ≤ d && d ≤ daysInMonth y m then
        some (dayOrdinal y m d)
      else none
    else none
  | _ => none

/-- Python `datetime.strptime(s, '%Y-%m-%d')` for a `\d{4}-\d{2}-\d{2}`-shaped
token: returns the day ordinal, or `none` on `ValueError`. -/
def parseYMD (l : List Char) : Option Nat :=
  match l with
  | [y1, y2, y3, y4, s1, m1, m2, s2, d1, d2] =>
    if (s1 == '-' && s2 == '-' &&
        pyDigit d1 && pyDigit d2 && pyDigit m1 && pyDigit m2 &&
        pyDigit y1 && pyDigit y2 && pyDigit y3 && pyDigit y4) then
      let d := digitVal d1 * 10 + digitVal d2
      let m := digitVal m1 * 10 + digitVal m2
      let y := digitVal y1 * 1000 + digitVal y2 * 100 + digitVal y3 * 10 + digitVal y4
      if 1 ≤ y && 1 ≤ m && m ≤ 12 && 1 ≤ d && d ≤ daysInMonth y m then
        some (dayOrdinal y m d)
      else none
    else none
  | _ => none

/-- The date-parsing step shared by `check_fssai_format` and the issue-date
back-fill in `verify_producer`: `'%d/%m/%Y'` when the string contains `'/'`,
else `'%Y-%m-%d'`. -/
def pyParseDate (l : List Char) : Option Nat :=
  if containsSeq l ['/'] then parseDMY l else parseYMD l

/-- Python `datetime.now()`: Gregorian day ordinal plus ticks into the day. -/
structure PyDateTime where
  ord : Nat
  tod : Nat
deriving DecidableEq, Repr

/-- The comparison `datetime.now() > exp_date` where `exp_date` was parsed
from a bare date (midnight). -/
def nowAfterMidnight (now : PyDateTime) (d : Nat) : Bool :=
  d < now.ord || (d == now.ord && 0 < now.tod)

/-! ## Deterministic scanners for the source's regular expressions

Each Python pattern in the source is embedded as a scanner that follows the
`re` module's leftmost, greedy-with-backtracking semantics for that concrete
pattern; the doc comment of each definition names the pattern it embeds. -/

/-- Consume a case-insensitive literal (`re.IGNORECASE`), returning the rest. -/
def dropLitCi : List Char → List Char → Option (List Char)
  | [], cs => some cs
  | _ :: _, [] => none
  | p :: ps, c :: cs => if c.toLower == p.toLower then dropLitCi ps cs else none

/-- Greedy `\s*`. -/
def dropWsStar (cs : List Char) : List Char := cs.dropWhile pyWs

/-- Take exactly `n` ASCII digits (`\d{n}`). -/
def takeDigits : Nat → List Char → Option (List Char × List Char)
  | 0, cs => some ([], cs)
  | _ + 1, [] => none
  | n + 1, c :: cs =>
    if pyDigit c then (takeDigits n cs).map (fun p => (c :: p.1, p.2)) else none

/-- Require a specific next character. -/
def expectChar (x : Char) : List Char → Option (List Char)
  | [] => none
  | c :: cs => if c == x then some cs else none

/-- Leftmost search: try the matcher at every start position, as `re.search`
does, taking the first success. -/
def searchCap (f : List Char → Option (List Char)) : List Char → Option (List Char)
  | [] => f []
  | c :: rest =>
    match f (c :: rest) with
    | some r => some r
    | none => searchCap f rest

/-- Leftmost search that also tracks the previous character, for patterns with
a leading word boundary `\b`. -/
def searchCapPrev (f : Option Char → List Char → Option (List Char)) :
    Option Char → List Char → Option (List Char)
  | prev, [] => f prev []
  | prev, c :: rest =>
    match f prev (c :: rest) with
    | some r => some r
    | none => searchCapPrev f (some c) rest

/-- Backtracking salvage for `\s*(cls+)` when the whole remainder is
whitespace: the engine gives whitespace back to the star one character at a
time, so the match starts at the last position whose character is in `cls`. -/
def salvageCap (cls : Char → Bool) : List Char → Option (List Char)
  | [] => none
  | c :: rest =>
    match salvageCap cls rest with
    | some cap => some cap
    | none => if cls c then some ((c :: rest).takeWhile cls) else none

/-- Greedy `\s*(cls+)` for a class `cls` that excludes no whitespace except
possibly newlines: maximal whitespace skip, then a greedy nonempty capture;
on failure the star backtracks into `salvageCap`. -/
def capWs (cls : Char → Bool) (r : List Char) : Option (List Char) :=
  match r.dropWhile pyWs with
  | [] => salvageCap cls r
  | rest => some (rest.takeWhile cls)

/-- Greedy `\s*[:\-]?\s*(cls+)`. -/
def capWsOptPunct (cls : Char → Bool) (r : List Char) : Option (List Char) :=
  match r.dropWhile pyWs with
  | [] => salvageCap cls r
  | c :: tail =>
    if c == ':' || c == '-' then
      match capWs cls tail with
      | some cap => some cap
      | none => some ((c :: tail).takeWhile cls)
    else some ((c :: tail).takeWhile cls)

/-- Greedy `\s*:\s*(cls+)` (mandatory colon). -/
def capWsColon (cls : Char → Bool) (r : List Char) : Option (List Char) :=
  match r.dropWhile pyWs with
  | c :: tail => if c == ':' then capWs cls tail else none
  | [] => none

/-- `\s*(shape)` for a fixed-shape capture starting with a digit (the star
cannot backtrack into a digit, so the shape must match right after the
maximal whitespace run). -/
def shapeAfterWs (shape : List Char → Option (List Char × List Char))
    (r : List Char) : Option (List Char) :=
  (shape (r.dropWhile pyWs)).map (·.1)

/-- `\s*[:\-]?\s*(shape)` for a fixed digit-leading shape. -/
def shapeAfterWsOptPunct (shape : List Char → Option (List Char × List Char))
    (r : List Char) : Option (List Char) :=
  match r.dropWhile pyWs with
  | c :: tail =>
    if c == ':' || c == '-' then (shape (tail.dropWhile pyWs)).map (·.1)
    else (shape (c :: tail)).map (·.1)
  | [] => none

/-- `\s*:\s*(shape)` for a fixed digit-leading shape. -/
def shapeAfterWsColon (shape : List Char → Option (List Char × List Char))
    (r : List Char) : Option (List Char) :=
  match r.dropWhile pyWs with
  | c :: tail => if c == ':' then (shape (tail.dropWhile pyWs)).map (·.1) else none
  | [] => none

/-- `[^\d]*(shape)`: the star stops at the first digit, where the shape must
match. -/
def shapeAfterNonDigits (shape : List Char → Option (List Char × List Char))
    (r : List Char) : Option (List Char) :=
  (shape (r.dropWhile (fun c => !pyDigit c))).map (·.1)

/-- `\s*\n\s*(shape)`: the consumed region is the maximal whitespace run,
which must contain a newline, with the shape right after it. -/
def shapeAfterWsWithNl (shape : List Char → Option (List Char × List Char))
    (r : List Char) : Option (List Char) :=
  let w := r.takeWhile pyWs
  if w.contains '\n' then (shape (r.drop w.length)).map (·.1) else none

/-- Capture shape `(\d{2}/\d{2}/\d{4})`. -/
def shapeDMY (cs : List Char) : Option (List Char × List Char) :=
  (takeDigits 2 cs).bind fun p1 =>
  (expectChar '/' p1.2).bind fun r1 =>
  (takeDigits 2 r1).bind fun p2 =>
  (expectChar '/' p2.2).bind fun r2 =>
  (takeDigits 4 r2).bind fun p3 =>
  some (p1.1 ++ '/' :: p2.1 ++ '/' :: p3.1, p3.2)

/-- Capture shape `(\d{4}-\d{2}-\d{2})`. -/
def shapeYMD (cs : List Char) : Option (List Char × List Char) :=
  (takeDigits 4 cs).bind fun p1 =>
  (expectChar '-' p1.2).bind fun r1 =>
  (takeDigits 2 r1).bind fun p2 =>
  (expectChar '-' p2.2).bind fun r2 =>
  (takeDigits 2 r2).bind fun p3 =>
  some (p1.1 ++ '-' :: p2.1 ++ '-' :: p3.1, p3.2)

theorem takeDigits_length {n : Nat} {cs d r : List Char}
    (h : takeDigits n cs = some (d, r)) :
    d.length = n ∧ d ++ r = cs ∧ d.all pyDigit := by
  induction n generalizing cs d r with
  | zero =>
    simp only [takeDigits, Option.some.injEq, Prod.mk.injEq] at h
    obtain ⟨h1, h2⟩ := h
    subst h1 h2
    simp
  | succ n ih =>
    match cs with
    | [] => simp [takeDigits] at h
    | c :: cs' =>
      simp only [takeDigits] at h
      by_cases hc : pyDigit c
      · simp only [hc, if_pos] at h
        match h' : takeDigits n cs' with
        | none => rw [h'] at h; simp at h
        | some (d', r') =>
          rw [h'] at h
          simp only [Option.map_some', Option.some.injEq, Prod.mk.injEq] at h
          obtain ⟨hd, hr⟩ := h
          obtain ⟨hl, ha, hdig⟩ := ih h'
          subst hd hr
          refine ⟨by simp [hl], by simp [ha], ?_⟩
          simp only [List.all_cons, hc, Bool.true_and]
          exact hdig
      · simp [hc] at h

theorem expectChar_cons {x : Char} {cs r : List Char}
    (h : expectChar x cs = some r) : cs = x :: r := by
  match cs with
  | [] => simp [expectChar] at h
  | c :: cs' =>
    simp only [expectChar] at h
    by_cases hc : c == x
    · simp only [hc, if_pos] at h
      injection h with h
      subst h
      simp [(by simpa using hc : c = x)]
    · simp [hc] at h

theorem shapeDMY_split {cs cap r : List Char} (h : shapeDMY cs = some (cap, r)) :
    cap ++ r = cs ∧ cap.length = 10 := by
  simp only [shapeDMY, Option.bind_eq_some] at h
  obtain ⟨p1, h1, r1, h2, p2, h3, r2, h4, p3, h5, hfin⟩ := h
  simp only [Option.some.injEq, Prod.mk.injEq] at hfin
  obtain ⟨hc, hr⟩ := hfin
  obtain ⟨l1, a1, -⟩ := takeDigits_length ((Prod.mk.eta ▸ h1) : takeDigits 2 cs = some (p1.1, p1.2))
  obtain ⟨l2, a2, -⟩ := takeDigits_length ((Prod.mk.eta ▸ h3) : takeDigits 2 r1 = some (p2.1, p2.2))
  obtain ⟨l3, a3, -⟩ := takeDigits_length ((Prod.mk.eta ▸ h5) : takeDigits 4 r2 = some (p3.1, p3.2))
  have e2 := expectChar_cons h2
  have e4 := expectChar_cons h4
  subst hc hr
  constructor
  · rw [← a1, e2, ← a2, e4, ← a3]; simp
  · simp [l1, l2, l3]

theorem shapeYMD_split {cs cap r : List Char} (h : shapeYMD cs = some (cap, r)) :
    cap ++ r = cs ∧ cap.length = 10 := by
  simp only [shapeYMD, Option.bind_eq_some] at h
  obtain ⟨p1, h1, r1, h2, p2, h3, r2, h4, p3, h5, hfin⟩ := h
  simp only [Option.some.injEq, Prod.mk.injEq] at hfin
  obtain ⟨hc, hr⟩ := hfin
  obtain ⟨l1, a1, -⟩ := takeDigits_length ((Prod.mk.eta ▸ h1) : takeDigits 4 cs = some (p1.1, p1.2))
  obtain ⟨l2, a2, -⟩ := takeDigits_length ((Prod.mk.eta ▸ h3) : takeDigits 2 r1 = some (p2.1, p2.2))
  obtain ⟨l3, a3, -⟩ := takeDigits_length ((Prod.mk.eta ▸ h5) : takeDigits 2 r2 = some (p3.1, p3.2))
  have e2 := expectChar_cons h2
  have e4 := expectChar_cons h4
  subst hc hr
  constructor
  · rw [← a1, e2, ← a2, e4, ← a3]; simp
  · simp [l1, l2, l3]

theorem shapeDMY_rest_le {c : Char} {rest cap r : List Char}
    (h : shapeDMY (c :: rest) = some (cap, r)) : r.length ≤ rest.length := by
  obtain ⟨ha, hl⟩ := shapeDMY_split h
  have := congrArg List.length ha
  simp [hl] at this
  omega

theorem shapeYMD_rest_le {c : Char} {rest cap r : List Char}
    (h : shapeYMD (c :: rest) = some (cap, r)) : r.length ≤ rest.length := by
  obtain ⟨ha, hl⟩ := shapeYMD_split h
  have := congrArg List.length ha
  simp [hl] at this
  omega

/-- Fuel-driven `re.findall` for a fixed-shape capture: repeated leftmost
non-overlapping matches; a match consumes at least one character, so fuel
equal to the input's length never runs out. -/
def findallShapeFuel (shape : List Char → Option (List Char × List Char)) :
    Nat → List Char → List (List Char)
  | 0, _ => []
  | fuel + 1, l =>
    match l with
    | [] => []
    | _ :: rest =>
      match shape l with
      | some p => p.1 :: findallShapeFuel shape fuel p.2
      | none => findallShapeFuel shape fuel rest

/-- Python `re.findall` for the date-token pattern `(\d{2}/\d{2}/\d{4})`. -/
def findallDMY (l : List Char) : List (List Char) :=
  findallShapeFuel shapeDMY l.length l

/-- Python `re.findall` for the date-token pattern `(\d{4}-\d{2}-\d{2})`. -/
def findallYMD (l : List Char) : List (List Char) :=
  findallShapeFuel shapeYMD l.length l

/-! ## `Agent1._fix_pdf_dates` -/

/-- Embeds `_fix_pdf_dates`: sequential `str.replace` of the OCR-split year
artifacts, in the source's dictionary order. -/
def fixPdfDates (l : List Char) : List Char :=
  let l1 := pyReplace l "2 020".toList "2020".toList
  let l2 := pyReplace l1 "2 025".toList "2025".toList
  let l3 := pyReplace l2 "2 024".toList "2024".toList
  let l4 := pyReplace l3 "2 019".toList "2019".toList
  let l5 := pyReplace l4 "2 021".toList "2021".toList
  let l6 := pyReplace l5 "2 022".toList "2022".toList
  pyReplace l6 "2 023".toList "2023".toList

/-! ## `Agent1.extract_license_number` -/

/-- The optional dot `\.?` (greedy, and giving it back cannot help since a
dot is neither whitespace, punctuation nor digit). -/
def dropOptDot : List Char → List Char
  | [] => []
  | c :: t => if c == '.' then t else c :: t

/-- The optional punctuation `[:\-]?`. -/
def dropOptColonDash : List Char → List Char
  | [] => []
  | c :: t => if c == ':' || c == '-' then t else c :: t

/-- At one start position: `Registration\s*No\.?\s*[:\-]?\s*(\d{14})`
(`re.IGNORECASE`). -/
def licPat1At (cs : List Char) : Option (List Char) :=
  (dropLitCi "registration".toList cs).bind fun r1 =>
  (dropLitCi "no".toList (dropWsStar r1)).bind fun r2 =>
  (takeDigits 14 (dropWsStar (dropOptColonDash (dropWsStar (dropOptDot r2))))).map (·.1)

/-- At one start position: `License\s*No\s*[:\-]?\s*(\d{14})`. -/
def licPat2At (cs : List Char) : Option (List Char) :=
  (dropLitCi "license".toList cs).bind fun r1 =>
  (dropLitCi "no".toList (dropWsStar r1)).bind fun r2 =>
  (takeDigits 14 (dropWsStar (dropOptColonDash (dropWsStar r2)))).map (·.1)

/-- At one start position: `FSSAI\s*License\s*No\s*[:\-]?\s*(\d{14})`. -/
def licPat3At (cs : List Char) : Option (List Char) :=
  (dropLitCi "fssai".toList cs).bind fun r0 =>
  licPat2At (dropWsStar r0)

/-- Word boundary `\b` before a digit: the previous character is absent or
not a word character. -/
def boundaryBeforeOk : Option Char → Bool
  | none => true
  | some c => !pyWord c

/-- Word boundary `\b` after a digit: the next character is absent or not a
word character. -/
def boundaryAfterOk : List Char → Bool
  | [] => true
  | c :: _ => !pyWord c

/-- At one start position: the generic `\b\d{14}\b` pattern; a digit is a word
character, so the boundaries require a non-word (or absent) neighbour on each
side. -/
def licPat4At (prev : Option Char) (cs : List Char) : Option (List Char) :=
  if boundaryBeforeOk prev then
    match takeDigits 14 cs with
    | some (d, rest) => if boundaryAfterOk rest then some d else none
    | none => none
  else none

/-- The final gate `re.match(r'^\d{14}$', license_no)` of
`extract_license_number`. -/
def licGate (s : List Char) : Option (List Char) :=
  if s.length == 14 && s.all pyDigit then some s else none

/-- Embeds `extract_license_number`: the four patterns tried in order, each
match filtered through the `^\d{14}$` gate. -/
def extract_license_number (text : List Char) : Option (List Char) :=
  match (searchCap licPat1At text).bind licGate with
  | some s => some s
  | none =>
    match (searchCap licPat2At text).bind licGate with
    | some s => some s
    | none =>
      match (searchCap licPat3At text).bind licGate with
      | some s => some s
      | none => (searchCapPrev licPat4At none text).bind licGate

/-! ## `Agent1.extract_name_from_fssai` -/

/-- Character class `[^\n]` of the `Operator\(FBO\)` capture. -/
def notNl (c : Char) : Bool := !(c == '\n')

/-- Character class `[^\n\r]` of the other name captures. -/
def notNlCr (c : Char) : Bool := !(c == '\n' || c == '\r')

/-- At one start position: `Operator\(FBO\)\s*([^\n]+)`. -/
def namePat1At (cs : List Char) : Option (List Char) :=
  (dropLitCi "operator(fbo)".toList cs).bind (capWs notNl)

/-- At one start position: `Licensee\s*Name\s*:\s*([^\n\r]+)`. -/
def namePat2At (cs : List Char) : Option (List Char) :=
  (dropLitCi "licensee".toList cs).bind fun r1 =>
  (dropLitCi "name".toList (dropWsStar r1)).bind (capWsColon notNlCr)

/-- At one start position: `Name\s*[:\-]?\s*([^\n\r]+)`. -/
def namePat3At (cs : List Char) : Option (List Char) :=
  (dropLitCi "name".toList cs).bind (capWsOptPunct notNlCr)

/-- At one start position: `Business\s+Name\s*[:\-]?\s*([^\n\r]+)` (the `\s+`
requires at least one whitespace character before `Name`). -/
def namePat4At (cs : List Char) : Option (List Char) :=
  (dropLitCi "business".toList cs).bind fun r1 =>
  match r1 with
  | c :: _ =>
    if pyWs c then
      (dropLitCi "name".toList (dropWsStar r1)).bind (capWsOptPunct notNlCr)
    else none
  | [] => none

/-- The address-indicator keywords of the `re.split` that truncates a name
candidate: `\s+(?:near|at|opp|village|sector|street|road|distt|district|sirsa|haryana)`. -/
def addrSplitKws : List (List Char) :=
  ["near".toList, "at".toList, "opp".toList, "village".toList, "sector".toList,
   "street".toList, "road".toList, "distt".toList, "district".toList,
   "sirsa".toList, "haryana".toList]

/-- Does one of the split keywords start (case-insensitively) here? -/
def kwStartsAt (cs : List Char) : Bool :=
  addrSplitKws.any fun kw => (dropLitCi kw cs).isSome

/-- Index of the leftmost split point of the truncation `re.split`: a
whitespace run followed by a keyword (`\s+` cannot end inside the run because
every keyword starts with a letter). -/
def splitKwIdx : List Char → Option Nat
  | [] => none
  | c :: rest =>
    if pyWs c && kwStartsAt ((c :: rest).dropWhile pyWs) then some 0
    else (splitKwIdx rest).map (· + 1)

/-- Python `re.sub(r'[\n\r\t]', ' ', name)`. -/
def subNlCrTab (l : List Char) : List Char :=
  l.map fun c => if c == '\n' || c == '\r' || c == '\t' then ' ' else c

/-- Candidate post-processing and filters shared by the four name patterns:
strip, newline removal, space normalization, the blacklist filters, the
address-keyword truncation, and title-casing. Returns `none` when the
candidate is rejected (the source then falls through to the next pattern). -/
def nameCandidate (cap : List Char) : Option (List Char) :=
  let name := normSpaces (subNlCrTab (pyStrip cap))
  if name.length > 2 &&
     !(containsSeq name ['/'] || containsSeq name ['\\']) &&
     !(startsWithSeq "font".toList (pyLower name)) &&
     !(containsSeq (pyLower name) "address".toList) &&
     !(containsSeq (pyLower name) "department".toList) &&
     !(containsSeq (pyLower name) "certificate".toList) then
    let part0 := match splitKwIdx name with
                 | some i => name.take i
                 | none => name
    let cleanName := pyStrip part0
    if cleanName.length > 2 then some (pyTitle cleanName) else none
  else none

/-- Embeds `extract_name_from_fssai`: null characters removed, the four
label patterns tried in order with the candidate filters, then the hardcoded
`"KINGS ROLL"` fallback. -/
def extract_name_from_fssai (text : List Char) : Option (List Char) :=
  let t := removeNulls text
  match (searchCap namePat1At t).bind nameCandidate with
  | some n => some n
  | none =>
    match (searchCap namePat2At t).bind nameCandidate with
    | some n => some n
    | none =>
      match (searchCap namePat3At t).bind nameCandidate with
      | some n => some n
      | none =>
        match (searchCap namePat4At t).bind nameCandidate with
        | some n => some n
        | none =>
          if containsSeq (pyUpper t) "KINGS ROLL".toList then
            some "Kings Roll".toList
          else none

/-! ## `Agent1.extract_certificate_type` and `Agent1.extract_business_type` -/

/-- At one start position: `Registration\s*Certificate`. -/
def certPat1At (cs : List Char) : Option (List Char) :=
  (dropLitCi "registration".toList cs).bind fun r =>
  dropLitCi "certificate".toList (dropWsStar r)

/-- At one start position: `State\s*License`. -/
def certPat2At (cs : List Char) : Option (List Char) :=
  (dropLitCi "state".toList cs).bind fun r =>
  dropLitCi "license".toList (dropWsStar r)

/-- At one start position: `Central\s*License`. -/
def certPat3At (cs : List Char) : Option (List Char) :=
  (dropLitCi "central".toList cs).bind fun r =>
  dropLitCi "license".toList (dropWsStar r)

/-- At one start position: `License\s*No`. -/
def certPat4At (cs : List Char) : Option (List Char) :=
  (dropLitCi "license".toList cs).bind fun r =>
  dropLitCi "no".toList (dropWsStar r)

/-- Embeds `extract_certificate_type`: the first matching type pattern
determines the category via the source's substring checks on the pattern
text itself. -/
def extract_certificate_type (text : List Char) : Option String :=
  if (searchCap certPat1At text).isSome then some "registration"
  else if (searchCap certPat2At text).isSome then some "state"
  else if (searchCap certPat3At text).isSome then some "central"
  else if (searchCap certPat4At text).isSome then some "license"
  else none

/-- At one start position: `Kind\s*of\s*Business\s*([^\n\r]+)`. -/
def bizPatAt (cs : List Char) : Option (List Char) :=
  (dropLitCi "kind".toList cs).bind fun r1 =>
  (dropLitCi "of".toList (dropWsStar r1)).bind fun r2 =>
  (dropLitCi "business".toList (dropWsStar r2)).bind (capWs notNlCr)

/-- Embeds `extract_business_type`: single label-anchored capture, cleaned
and title-cased. -/
def extract_business_type (text : List Char) : Option (List Char) :=
  (searchCap bizPatAt text).map fun cap =>
    pyTitle (normSpaces (subNlCrTab (pyStrip cap)))

/-! ## `Agent1.extract_expiry_date` -/

/-- Deepest-first scan over `Upto` occurrences on the current line, for the
greedy `Valid[^\n]*Upto[^\d\n]*(shape)` pattern: the engine prefers the
longest `[^\n]*`, i.e. the latest `Upto` occurrence that completes a match. -/
def uptoDescend (shape : List Char → Option (List Char × List Char)) :
    List Char → Option (List Char)
  | [] => none
  | c :: rest =>
    if c == '\n' then none
    else
      match uptoDescend shape rest with
      | some cap => some cap
      | none =>
        match dropLitCi "upto".toList (c :: rest) with
        | some after =>
          (shape (after.dropWhile (fun x => !pyDigit x && !(x == '\n')))).map (·.1)
        | none => none

/-- Is there an `upto` occurrence (case-insensitive) before the next
newline? -/
def uptoInLine : List Char → Bool
  | [] => false
  | c :: rest =>
    if c == '\n' then false
    else (dropLitCi "upto".toList (c :: rest)).isSome || uptoInLine rest

/-- At one start position: `Valid[^\n]*Upto[^\n]*\n[^\d]*(shape)`: an `Upto`
on the same line, skip to the line's newline, then `[^\d]*` runs to the first
digit (possibly across lines) where the shape must match. -/
def expiryP6At (shape : List Char → Option (List Char × List Char))
    (cs : List Char) : Option (List Char) :=
  (dropLitCi "valid".toList cs).bind fun r =>
  if uptoInLine r then
    match r.dropWhile (fun c => !(c == '\n')) with
    | _ :: tail => shapeAfterNonDigits shape tail
    | [] => none
  else none

/-- At one start position, the family of `Valid Upto` label patterns for one
date shape, in source order (patterns `Valid Upto\s*:\s*`,
`Valid Upto\s*[:\-]?\s*`, `Valid Upto[^\d]*`, `Valid Upto\s*\n\s*`, and for
the DD/MM/YYYY shape additionally `Valid[^\n]*Upto[^\d\n]*` and
`Valid[^\n]*Upto[^\n]*\n[^\d]*`). -/
def expiryLit : List Char := "valid upto".toList

/-- Pattern 1/7: `Valid Upto\s*:\s*(shape)` at one start position. -/
def expiryPColonAt (shape : List Char → Option (List Char × List Char))
    (cs : List Char) : Option (List Char) :=
  (dropLitCi expiryLit cs).bind (shapeAfterWsColon shape)

/-- Pattern 2/8: `Valid Upto\s*[:\-]?\s*(shape)` at one start position. -/
def expiryPOptPunctAt (shape : List Char → Option (List Char × List Char))
    (cs : List Char) : Option (List Char) :=
  (dropLitCi expiryLit cs).bind (shapeAfterWsOptPunct shape)

/-- Pattern 3/9: `Valid Upto[^\d]*(shape)` at one start position. -/
def expiryPNonDigitAt (shape : List Char → Option (List Char × List Char))
    (cs : List Char) : Option (List Char) :=
  (dropLitCi expiryLit cs).bind (shapeAfterNonDigits shape)

/-- Pattern 4/10: `Valid Upto\s*\n\s*(shape)` at one start position. -/
def expiryPNlAt (shape : List Char → Option (List Char × List Char))
    (cs : List Char) : Option (List Char) :=
  (dropLitCi expiryLit cs).bind (shapeAfterWsWithNl shape)

/-- Pattern 5: `Valid[^\n]*Upto[^\d\n]*(\d{2}/\d{2}/\d{4})` at one start
position. -/
def expiryP5At (cs : List Char) : Option (List Char) :=
  (dropLitCi "valid".toList cs).bind (uptoDescend shapeDMY)

/-- The label-anchored phase of `extract_expiry_date`: the ten `date_patterns`
searched in source order; each `re.findall` loop returns its first capture,
which always passes the date-shape re-validation. -/
def expiryLabelPhase (t : List Char) : Option (List Char) :=
  match searchCap (expiryPColonAt shapeDMY) t with
  | some d => some d
  | none =>
  match searchCap (expiryPOptPunctAt shapeDMY) t with
  | some d => some d
  | none =>
  match searchCap (expiryPNonDigitAt shapeDMY) t with
  | some d => some d
  | none =>
  match searchCap (expiryPNlAt shapeDMY) t with
  | some d => some d
  | none =>
  match searchCap expiryP5At t with
  | some d => some d
  | none =>
  match searchCap (expiryP6At shapeDMY) t with
  | some d => some d
  | none =>
  match searchCap (expiryPColonAt shapeYMD) t with
  | some d => some d
  | none =>
  match searchCap (expiryPOptPunctAt shapeYMD) t with
  | some d => some d
  | none =>
  match searchCap (expiryPNonDigitAt shapeYMD) t with
  | some d => some d
  | none => searchCap (expiryPNlAt shapeYMD) t

/-- The parse-all step of the expiry fallback: `datetime.strptime` on every
`DD/MM/YYYY` token; any failure raises `ValueError` for the whole loop. -/
def parseAllDMY : List (List Char) → Option (List (Nat × List Char))
  | [] => some []
  | d :: ds =>
    match parseDMY d with
    | none => none
    | some o => (parseAllDMY ds).map ((o, d) :: ·)

/-- Stable insertion by date key, modelling the stable
`date_objects.sort(key=lambda x: x[0])`. -/
def insertByKey (x : Nat × List Char) : List (Nat × List Char) → List (Nat × List Char)
  | [] => [x]
  | y :: ys => if x.1 ≤ y.1 then x :: y :: ys else y :: insertByKey x ys

/-- Stable sort by date key. -/
def sortByKey : List (Nat × List Char) → List (Nat × List Char)
  | [] => []
  | x :: xs => insertByKey x (sortByKey xs)

/-- Embeds `extract_expiry_date`: OCR date fix, the ten label patterns, then
the fallback over all `DD/MM/YYYY` tokens (chronologically sorted when they
all parse, else the lexically last), then the lexically last `YYYY-MM-DD`
token. -/
def extract_expiry_date (text : List Char) : Option (List Char) :=
  let t := fixPdfDates text
  match expiryLabelPhase t with
  | some d => some d
  | none =>
    match findallDMY t with
    | [] =>
      match findallYMD t with
      | [] => none
      | ds => ds.getLast?
    | ds =>
      match parseAllDMY ds with
      | some pairs => ((sortByKey pairs).getLast?).map (·.2)
      | none => ds.getLast?

/-! ## `Agent1.extract_issue_date` -/

/-- At one start position: `Issue\s*Date\s*:\s*(shape)`. -/
def issueP1At (shape : List Char → Option (List Char × List Char))
    (cs : List Char) : Option (List Char) :=
  (dropLitCi "issue".toList cs).bind fun r1 =>
  (dropLitCi "date".toList (dropWsStar r1)).bind (shapeAfterWsColon shape)

/-- At one start position: `Issue\s*Date\s*[:\-]?\s*(shape)`. -/
def issueP2At (shape : List Char → Option (List Char × List Char))
    (cs : List Char) : Option (List Char) :=
  (dropLitCi "issue".toList cs).bind fun r1 =>
  (dropLitCi "date".toList (dropWsStar r1)).bind (shapeAfterWsOptPunct shape)

/-- At one start position: `Date\s*of\s*Issue\s*:\s*(shape)`. -/
def issueP3At (shape : List Char → Option (List Char × List Char))
    (cs : List Char) : Option (List Char) :=
  (dropLitCi "date".toList cs).bind fun r1 =>
  (dropLitCi "of".toList (dropWsStar r1)).bind fun r2 =>
  (dropLitCi "issue".toList (dropWsStar r2)).bind (shapeAfterWsColon shape)

/-- At one start position: `Date\s*of\s*Issue\s*[:\-]?\s*(shape)`. -/
def issueP4At (shape : List Char → Option (List Char × List Char))
    (cs : List Char) : Option (List Char) :=
  (dropLitCi "date".toList cs).bind fun r1 =>
  (dropLitCi "of".toList (dropWsStar r1)).bind fun r2 =>
  (dropLitCi "issue".toList (dropWsStar r2)).bind (shapeAfterWsOptPunct shape)

/-- The line-by-line fallback of `extract_issue_date`: on the first line
containing `issue` or `registration` that carries a date token, return the
line's first `DD/MM/YYYY` token, else its first `YYYY-MM-DD` token. -/
def issueLineFallback : List (List Char) → Option (List Char)
  | [] => none
  | line :: rest =>
    if containsCi line "issue".toList || containsCi line "registration".toList then
      match findallDMY line with
      | d :: _ => some d
      | [] =>
        match findallYMD line with
        | d :: _ => some d
        | [] => issueLineFallback rest
    else issueLineFallback rest

/-- Embeds `extract_issue_date`: OCR date fix, the eight label patterns in
source order, then the line-scanning fallback. -/
def extract_issue_date (text : List Char) : Option (List Char) :=
  let t := fixPdfDates text
  match searchCap (issueP1At shapeDMY) t with
  | some d => some d
  | none =>
  match searchCap (issueP2At shapeDMY) t with
  | some d => some d
  | none =>
  match searchCap (issueP3At shapeDMY) t with
  | some d => some d
  | none =>
  match searchCap (issueP4At shapeDMY) t with
  | some d => some d
  | none =>
  match searchCap (issueP1At shapeYMD) t with
  | some d => some d
  | none =>
  match searchCap (issueP2At shapeYMD) t with
  | some d => some d
  | none =>
  match searchCap (issueP3At shapeYMD) t with
  | some d => some d
  | none =>
  match searchCap (issueP4At shapeYMD) t with
  | some d => some d
  | none => issueLineFallback (splitLines t)

/-! ## `Agent1.extract_address` -/

/-- The section labels of the lookahead
`(?=\n\s*(?:License|Registration|Valid|Certificate|Name|Operator))`. -/
def addrSectionKws : List (List Char) :=
  ["license".toList, "registration".toList, "valid".toList,
   "certificate".toList, "name".toList, "operator".toList]

/-- Does the lookahead `\n\s*(?:License|...|Operator)` hold here?  The
alternatives start with letters, so `\s*` must run to the first non-space. -/
def addrLookaheadAt : List Char → Bool
  | '\n' :: rest => addrSectionKws.any fun kw => (dropLitCi kw (rest.dropWhile pyWs)).isSome
  | _ => false

/-- Fuel-driven lazy extension `(?:\n[^\n\r]+)*?` against the section
lookahead: test the lookahead before each extension; each extension consumes
a newline plus a nonempty `\r`-free line (at least two characters), so fuel
equal to the remainder's length never runs out. -/
def addrExtendFuel : Nat → List Char → List Char → Option (List Char)
  | 0, _, _ => none
  | fuel + 1, acc, rest =>
    if addrLookaheadAt rest then some acc
    else
      match rest with
      | '\n' :: tail =>
        match tail.takeWhile notNlCr with
        | [] => none
        | seg => addrExtendFuel fuel (acc ++ '\n' :: seg) (tail.drop seg.length)
      | _ => none

/-- Greedy first line `([^\n\r]+ ...)` of the address capture starting at a
given position, followed by the lazy extension. -/
def addrCapFrom (t : List Char) : Option (List Char) :=
  match t.takeWhile notNlCr with
  | [] => none
  | x => addrExtendFuel (t.length + 1) x (t.drop x.length)

/-- One backtracking attempt of the `\s*` before the capture, with the star
holding `w` characters. -/
def addrTryWAttempt (r : List Char) (w : Nat) : Option (List Char) :=
  match r.drop w with
  | [] => none
  | c :: _ => if c == '\n' || c == '\r' then none else addrCapFrom (r.drop w)

/-- Backtracking of the `\s*` before the capture: the star is given back one
character at a time from its maximal extent, skipping start positions whose
character cannot begin `[^\n\r]+`. -/
def addrTryW (r : List Char) : Nat → Option (List Char)
  | 0 => addrTryWAttempt r 0
  | w + 1 =>
    match addrTryWAttempt r (w + 1) with
    | some cap => some cap
    | none => addrTryW r w

/-- `\s*(capture)(?=lookahead)` of the address patterns, starting from the
maximal whitespace extent. -/
def addrWsCap (r : List Char) : Option (List Char) :=
  addrTryW r (r.takeWhile pyWs).length

/-- `\s*:` then the captured block: the first star cannot give back a
non-colon character, so the colon must sit at the end of the whitespace
run. -/
def addrColonCap (r : List Char) : Option (List Char) :=
  match r.dropWhile pyWs with
  | ':' :: tail => addrWsCap tail
  | _ => none

/-- At one start position:
`Address\s*:\s*([^\n\r]+(?:\n[^\n\r]+)*?)(?=\n\s*(?:License|Registration|Valid|Certificate|Name|Operator))`. -/
def addrPat1At (cs : List Char) : Option (List Char) :=
  (dropLitCi "address".toList cs).bind addrColonCap

/-- At one start position: `Business\s*Address\s*:\s*(...)(?=...)`. -/
def addrPat2At (cs : List Char) : Option (List Char) :=
  (dropLitCi "business".toList cs).bind fun r1 =>
  (dropLitCi "address".toList (dropWsStar r1)).bind addrColonCap

/-- At one start position: `Address\s*of\s*Premises\s*:\s*(...)(?=...)`. -/
def addrPat3At (cs : List Char) : Option (List Char) :=
  (dropLitCi "address".toList cs).bind fun r1 =>
  (dropLitCi "of".toList (dropWsStar r1)).bind fun r2 =>
  (dropLitCi "premises".toList (dropWsStar r2)).bind addrColonCap

/-- At one start position: the Hindi label pattern `पता\s*(...)(?=...)`
(no colon). -/
def addrPat4At (cs : List Char) : Option (List Char) :=
  (dropLitCi "पता".toList cs).bind addrWsCap

/-- Candidate cleanup of the address pattern phase: strip, control-character
substitution, space normalization, and the `len(address) > 5` filter. -/
def addrCandidate (cap : List Char) : Option (List Char) :=
  let a := normSpaces (subNlCrTab (pyStrip cap))
  if a.length > 5 then some a else none

/-- Section words of the business-name-scan fallback:
`license|registration|valid|certificate|fbo|operator`. -/
def addrF2SectionWord (l : List Char) : Bool :=
  containsCi l "license".toList || containsCi l "registration".toList ||
  containsCi l "valid".toList || containsCi l "certificate".toList ||
  containsCi l "fbo".toList || containsCi l "operator".toList

/-- Location words of the business-name-scan fallback. -/
def addrF2LocationWord (l : List Char) : Bool :=
  containsCi l "near".toList || containsCi l "at".toList ||
  containsCi l "opp".toList || containsCi l "village".toList ||
  containsCi l "sector".toList || containsCi l "street".toList ||
  containsCi l "road".toList || containsCi l "distt".toList ||
  containsCi l "district".toList || containsCi l "punjab".toList ||
  containsCi l "bus".toList || containsCi l "stand".toList ||
  containsCi l "vpo".toList || containsCi l "teh".toList ||
  containsCi l "kalanwali".toList || containsCi l "sirsa".toList ||
  containsCi l "haryana".toList

/-- The accumulation loop of the business-name-scan fallback over the next
few lines: keep a line when it carries a location word, or continues a run
already started; stop at a section-label line (or an empty line) once the
run has started. -/
def collectAddrParts : List (List Char) → List (List Char) → List (List Char)
  | [], acc => acc
  | line :: rest, acc =>
    let l := pyStrip line
    if !l.isEmpty && !addrF2SectionWord l then
      if addrF2LocationWord l then collectAddrParts rest (acc ++ [l])
      else if !acc.isEmpty then collectAddrParts rest (acc ++ [l])
      else collectAddrParts rest acc
    else if !acc.isEmpty then acc
    else collectAddrParts rest acc

/-- The business-name-scan fallback of `extract_address`: locate the
extracted business name (case-insensitively), scan the following five lines,
and keep the collected run when its normalized join is longer than 10. -/
def addrFallback2 (text : List Char) : Option (List Char) :=
  match extract_name_from_fssai text with
  | none => none
  | some bn =>
    match findSeqIdx (pyLower text) (pyLower bn) with
    | none => none
    | some pos =>
      let remaining := text.drop (pos + bn.length)
      let parts := collectAddrParts ((splitLines remaining).take 5) []
      if parts.isEmpty then none
      else
        let full := normSpaces (List.intercalate [' '] parts)
        if full.length > 10 then some full else none

/-- Python `line.split(':', 1)[1]`: the remainder after the first colon. -/
def afterFirstColon : List Char → List Char
  | [] => []
  | c :: rest => if c == ':' then rest else afterFirstColon rest

/-- Keywords ending the keyword-line fallback:
`license|registration|valid|certificate|name|operator|fbo` as substrings of
the lowered stripped line. -/
def addrF3Kw (ll : List Char) : Bool :=
  containsSeq ll "license".toList || containsSeq ll "registration".toList ||
  containsSeq ll "valid".toList || containsSeq ll "certificate".toList ||
  containsSeq ll "name".toList || containsSeq ll "operator".toList ||
  containsSeq ll "fbo".toList

/-- The keyword-line fallback loop of `extract_address`: start collecting at
a line containing `address` and a colon (taking the part after the colon),
then append stripped nonempty lines until a section keyword appears. -/
def addrFallback3Loop : List (List Char) → Bool → List (List Char) → List (List Char)
  | [], _, acc => acc
  | line :: rest, inAddr, acc =>
    let ll := pyStrip (pyLower line)
    if containsSeq ll "address".toList && containsSeq line [':'] then
      addrFallback3Loop rest true (acc ++ [pyStrip (afterFirstColon line)])
    else if inAddr then
      if addrF3Kw ll then acc
      else if !(pyStrip line).isEmpty then
        addrFallback3Loop rest true (acc ++ [pyStrip line])
      else addrFallback3Loop rest true acc
    else addrFallback3Loop rest false acc

/-- The keyword-line fallback of `extract_address`. -/
def addrFallback3 (text : List Char) : Option (List Char) :=
  let acc := addrFallback3Loop (splitLines text) false []
  if acc.isEmpty then none
  else
    let full := normSpaces (List.intercalate [' '] acc)
    if full.length > 5 then some full else none

/-- Embeds `extract_address`: the four label-anchored multiline patterns with
the length-5 filter, then the business-name-scan fallback, then the
keyword-line fallback. -/
def extract_address (text : List Char) : Option (List Char) :=
  match (searchCap addrPat1At text).bind addrCandidate with
  | some a => some a
  | none =>
  match (searchCap addrPat2At text).bind addrCandidate with
  | some a => some a
  | none =>
  match (searchCap addrPat3At text).bind addrCandidate with
  | some a => some a
  | none =>
  match (searchCap addrPat4At text).bind addrCandidate with
  | some a => some a
  | none =>
  match addrFallback2 text with
  | some a => some a
  | none => addrFallback3 text

/-! ## `Agent1.verify_names` -/

/-- Result of `verify_names`, mirroring the keys of the returned dict
(`fssaiText` models the `fssai_text` key added only on success). -/
structure NameResult where
  status : String
  message : List Char
  details : Option (List Char × List Char)
  fssaiText : Option (List Char)
deriving DecidableEq, Repr

/-- The name comparison of `verify_names`
(`provided_name.strip().lower() == business_name.strip().lower()`). -/
def namesEqualNormalized (providedName businessName : List Char) : Bool :=
  pyLower (pyStrip providedName) == pyLower (pyStrip businessName)

/-- Embeds `verify_names`, taking the text the TextExtractor collaborator
produced for the document: empty text and missing business name reject;
otherwise exact comparison of the trimmed lower-cased names. -/
def verify_names (providedName text : List Char) : NameResult :=
  if text.isEmpty then
    { status := "rejected", message := "Could not read FSSAI document".toList,
      details := none, fssaiText := none }
  else
    match extract_name_from_fssai text with
    | none =>
      { status := "rejected",
        message := "Could not extract business name from FSSAI document".toList,
        details := none, fssaiText := none }
    | some bn =>
      if namesEqualNormalized providedName bn then
        { status := "verified", message := "Names match successfully".toList,
          details := some (providedName, bn), fssaiText := some text }
      else
        { status := "rejected",
          message := "Name mismatch: '".toList ++ providedName ++
            "' (provided) != '".toList ++ bn ++ "' (FSSAI document)".toList,
          details := some (providedName, bn), fssaiText := none }

/-! ## `Agent1.check_fssai_format` -/

/-- Result of `check_fssai_format`. -/
structure FormatResult where
  status : String
  message : List Char
  issues : List (List Char)
deriving DecidableEq, Repr

/-- The completeness issues of `check_fssai_format`, accumulated in source
order on the fixed text: missing 14-digit license number, missing business
name, missing `address` substring, no date-shaped token at all. -/
def formatIssuesPre (t : List Char) : List (List Char) :=
  (if (extract_license_number t).isNone then
    ["No 14-digit license number found".toList] else []) ++
  (if (extract_name_from_fssai t).isNone then
    ["Business name not found".toList] else []) ++
  (if !containsCi t "address".toList then
    ["Address information not found".toList] else []) ++
  (if (findallDMY t ++ findallYMD t).isEmpty then
    ["Issue or expiry date not found".toList] else [])

/-- The full issue list of `check_fssai_format` on the fixed text: the
completeness issues followed by the expiry handling (expired entry, removal
of the generic date complaint on a valid expiry, parse-failure entry, or the
missing-expiry entry). -/
def formatIssues (now : PyDateTime) (t : List Char) : List (List Char) :=
  match extract_expiry_date t with
  | some e =>
    (match pyParseDate e with
     | some d =>
       if nowAfterMidnight now d then
         formatIssuesPre t ++ ["License expired on ".toList ++ e]
       else if (formatIssuesPre t).any
           (fun i => containsSeq i "Issue or expiry date not found".toList) then
         (formatIssuesPre t).filter
           (fun i => !containsSeq i "Issue or expiry date not found".toList)
       else formatIssuesPre t
     | none => formatIssuesPre t ++ ["Invalid expiry date format".toList])
  | none =>
    if !((formatIssuesPre t).any fun i =>
        containsSeq i "Issue or expiry date".toList) then
      formatIssuesPre t ++ ["Expiry date not found".toList]
    else formatIssuesPre t

/-- Embeds `check_fssai_format`, taking the extracted document text and the
current time: the hardcoded license-number bypass, then the accumulated
completeness issues, then the expiry check. -/
def check_fssai_format (now : PyDateTime) (text : List Char) : FormatResult :=
  if text.isEmpty then
    { status := "rejected", message := "Could not read FSSAI document".toList,
      issues := ["Could not read FSSAI document".toList] }
  else if containsSeq text "20819019000744".toList then
    { status := "verified",
      message := "FSSAI document contains required number".toList, issues := [] }
  else if !(formatIssues now (fixPdfDates text)).isEmpty then
    { status := "rejected",
      message := "FSSAI document format issues found".toList,
      issues := formatIssues now (fixPdfDates text) }
  else
    { status := "verified",
      message := "FSSAI document format is valid".toList, issues := [] }

/-! ## `Agent1.verify_producer` -/

/-- The issue-date back-fill of the finalize step: when no issue date was
extracted but an expiry date was, parse it and subtract
`timedelta(days=365*5)`, i.e. exactly 1825 days; a `ValueError` keeps the
issue date absent.  (Supported dates lie far above ordinal 1825, so the
subtraction never underflows.) -/
def backfillIssueDate (issueDate expiryDate : Option (List Char)) :
    Option (List Char) :=
  match issueDate, expiryDate with
  | none, some e =>
    (match pyParseDate e with
     | some d => some (formatDMY (d - 1825))
     | none => none)
  | i, _ => i

/-- The `clean_text` closure of the finalize step: remove nulls, collapse
newlines to spaces, trim; `None` and the empty string pass through. -/
def cleanText : Option (List Char) → Option (List Char)
  | none => none
  | some s =>
    if s.isEmpty then some s
    else some (pyStrip ((removeNulls s).map fun c =>
      if c == '\n' || c == '\r' then ' ' else c))

/-- Python round-half-even of `{value:.0f}` formatting, on the rational
modelling the float income. -/
def roundHalfEven (q : ℚ) : Int :=
  let f := ⌊q⌋
  let frac := q - f
  if frac < 1/2 then f
  else if 1/2 < frac then f + 1
  else if f % 2 = 0 then f else f + 1

/-- Comma grouping of `{value:,.0f}`, inserting a comma after every third
digit from the right (input reversed). -/
def groupThousandsRev : List Char → List Char
  | a :: b :: c :: d :: rest => a :: b :: c :: ',' :: groupThousandsRev (d :: rest)
  | l => l

/-- Python `f"{income:,.0f}"`. -/
def formatIncomeCommas (q : ℚ) : List Char :=
  let n := roundHalfEven q
  let ds := (Nat.toDigits 10 n.natAbs).reverse
  (if n < 0 then ['-'] else []) ++ (groupThousandsRev ds).reverse

/-- The expected certificate class derived from income in `verify_producer`
(step 3): below 1,200,000 a registration certificate, otherwise the license
family. -/
def expectedCertType (income : ℚ) : String :=
  if income < 1200000 then "registration" else "license"

/-- Result of `verify_producer`, mirroring the keys of the returned dicts;
a `none` models an absent key (the date and address keys of the success
payload hold possibly-`None` values, hence the nested options). -/
structure VResult where
  status : String
  stage : Option String := none
  message : List Char := []
  details : Option (List Char × List Char) := none
  issues : Option (List (List Char)) := none
  nameDetails : Option (List Char × List Char) := none
  certificateType : Option String := none
  formatDetails : Option FormatResult := none
  issueDate : Option (Option (List Char)) := none
  expiryDate : Option (Option (List Char)) := none
  address : Option (Option (List Char)) := none
  pin : Option Nat := none
  dataStored : Option Bool := none
deriving DecidableEq, Repr

/-- Embeds `verify_producer` over the text produced by the TextExtractor
collaborator for the document (the source extracts the same text twice from
the same path).  The confirmation `pin` drawn by `random.randint(100000,
999999)` and the success of the external-store upsert (`storeOk`) are the
two external effects, passed as parameters; `now` is the clock
reading used by the expiry comparison. -/
def verify_producer (producerName text : List Char) (income : ℚ) (pin : Nat)
    (storeOk : Bool) (now : PyDateTime) : VResult :=
  let nv := verify_names producerName text
  if nv.status ≠ "verified" then
    { status := "failed", stage := some "name_verification",
      message := nv.message, details := nv.details }
  else
    let ft := nv.fssaiText.getD []
    if ft.isEmpty then
      { status := "failed", stage := some "document_read",
        message := "Could not read FSSAI document text".toList }
    else
      match extract_certificate_type ft with
      | none =>
        { status := "failed", stage := some "certificate_type",
          message := "Certificate type not found in document".toList }
      | some actualType =>
        let _businessType := extract_business_type ft
        let expectedType := expectedCertType income
        if expectedType = "registration" ∧ actualType ≠ "registration" then
          { status := "failed", stage := some "certificate_match",
            message := "Based on income (₹".toList ++ formatIncomeCommas income ++
              "), registration certificate expected, but document shows ".toList ++
              actualType.toList ++ " license".toList }
        else if expectedType = "license" ∧ actualType = "registration" then
          { status := "failed", stage := some "certificate_match",
            message := "Based on income (₹".toList ++ formatIncomeCommas income ++
              "), state or central license expected, but document shows registration certificate".toList }
        else
          let fv := check_fssai_format now text
          if fv.status ≠ "verified" then
            { status := "failed", stage := some "format_verification",
              message := fv.message, issues := some fv.issues }
          else
            let _licenseNumber := extract_license_number ft
            let issueDate0 := extract_issue_date ft
            let expiryDate0 := extract_expiry_date ft
            let address0 := extract_address ft
            let issueDate := cleanText (backfillIssueDate issueDate0 expiryDate0)
            let expiryDate := cleanText expiryDate0
            let address := cleanText address0
            { status := "success",
              message := "Producer verified successfully".toList,
              nameDetails := nv.details,
              certificateType := some actualType,
              formatDetails := some fv,
              issueDate := some issueDate,
              expiryDate := some expiryDate,
              address := some address,
              pin := some pin,
              dataStored := some storeOk }

/-! ## Verification of the specification claims -/

/-- Clock reading used by the concrete scenarios: 2026-10-12, mid-day. -/
def scenarioNow : PyDateTime := { ord := dayOrdinal 2026 10 12, tod := 5 }

theorem containsSeq_ne_nil {l pat : List Char} (hpat : pat ≠ [])
    (h : containsSeq l pat = true) : l ≠ [] := by
  intro hl
  subst hl
  cases pat with
  | nil => exact hpat rfl
  | cons p ps => simp [containsSeq, startsWithSeq] at h

/-- C3: any document text containing the hardcoded bypass literal
`20819019000744` makes `check_fssai_format` return `verified` with an empty
issues list, skipping the completeness and expiry checks entirely. -/
theorem c3_bypass_literal_short_circuits (now : PyDateTime) (text : List Char)
    (h : containsSeq text "20819019000744".toList = true) :
    check_fssai_format now text =
      { status := "verified",
        message := "FSSAI document contains required number".toList,
        issues := [] } := by
  have hne : text ≠ [] := containsSeq_ne_nil (by decide) h
  have hempty : text.isEmpty = false := by
    cases text with
    | nil => exact absurd rfl hne
    | cons c cs => rfl
  unfold check_fssai_format
  rw [hempty]
  simp only [Bool.false_eq_true, if_false, h, if_true]

/-- Witness for C3 at a concrete document text containing the bypass
literal. -/
theorem c3_witness :
    check_fssai_format scenarioNow "junk 20819019000744 junk".toList =
      { status := "verified",
        message := "FSSAI document contains required number".toList,
        issues := [] } :=
  c3_bypass_literal_short_circuits scenarioNow "junk 20819019000744 junk".toList (by decide)

/-- C6 counterexample: the back-fill computes expiry minus 1825 days, and
1825 days before 13/12/2025 is 14/12/2020 (the five-year span contains the
leap day 29/02/2024), not the 13/12/2020 the claim states. -/
theorem c6_backfill_cex :
    backfillIssueDate none (some "13/12/2025".toList) = some "14/12/2020".toList ∧
    "14/12/2020".toList ≠ "13/12/2020".toList := by decide

/-- C6 (amended): with no extracted issue date and a parseable expiry date,
the finalize back-fill returns the expiry date minus exactly 365×5 = 1825
days, rendered as `%d/%m/%Y`; in particular expiry `13/12/2025` back-fills
to `14/12/2020`.  (The range hypothesis keeps the subtraction inside the
calendar, where the source's `datetime` arithmetic is defined.) -/
theorem c6_backfill_minus_1825_days (e : List Char) (d : Nat)
    (hp : pyParseDate e = some d) (hrange : 1825 ≤ d) :
    backfillIssueDate none (some e) = some (formatDMY (d - 1825)) ∧
    backfillIssueDate none (some "13/12/2025".toList) = some "14/12/2020".toList := by
  constructor
  · simp only [backfillIssueDate, hp]
  · decide

/-- Witness for C6 at the concrete expiry date of the claim. -/
theorem c6_witness :
    backfillIssueDate none (some "13/12/2025".toList) =
      some (formatDMY (dayOrdinal 2025 12 13 - 1825)) ∧
    backfillIssueDate none (some "13/12/2025".toList) = some "14/12/2020".toList :=
  c6_backfill_minus_1825_days "13/12/2025".toList (dayOrdinal 2025 12 13)
    (by decide) (by decide)

/-- C8 counterexample: a request whose document text extraction is empty
fails with stage `name_verification`, not the `document_read` the claim
states (the `document_read` branch is unreachable: `verify_names` only
reports `verified` after storing the nonempty text). -/
theorem c8_empty_text_cex :
    (verify_producer "x".toList [] 0 1 true scenarioNow).status = "failed" ∧
    (verify_producer "x".toList [] 0 1 true scenarioNow).stage =
      some "name_verification" ∧
    "name_verification" ≠ "document_read" := by decide

/-- C8 (amended): for every request whose document text extraction yields an
empty string, the pipeline returns a failed result whose stage is
`name_verification` with the unreadable-document message; the
`document_read` stage cannot be reached this way. -/
theorem c8_empty_text_fails_name_stage (p : List Char) (income : ℚ)
    (pin : Nat) (b : Bool) (now : PyDateTime) :
    (verify_producer p [] income pin b now).status = "failed" ∧
    (verify_producer p [] income pin b now).stage = some "name_verification" ∧
    (verify_producer p [] income pin b now).message =
      "Could not read FSSAI document".toList := by
  have hnv : verify_names p [] =
      { status := "rejected", message := "Could not read FSSAI document".toList,
        details := none, fssaiText := none } := by
    unfold verify_names
    rfl
  unfold verify_producer
  rw [hnv]
  exact ⟨rfl, rfl, rfl⟩

set_option maxHeartbeats 2000000 in
/-- C4 counterexample: a text that contains the bypass literal together with
a single extractable expiry date lying in the past is reported `verified`
with an empty issues list — no "License expired" entry, contradicting the
claim's unconditional statement. -/
theorem c4_expired_bypass_cex :
    (check_fssai_format scenarioNow
      "x 20819019000744 Valid Upto: 01/01/2020".toList).issues = [] ∧
    (check_fssai_format scenarioNow
      "x 20819019000744 Valid Upto: 01/01/2020".toList).status = "verified" ∧
    extract_expiry_date (fixPdfDates "x 20819019000744 Valid Upto: 01/01/2020".toList) =
      some "01/01/2020".toList ∧
    pyParseDate "01/01/2020".toList = some (dayOrdinal 2020 1 1) ∧
    nowAfterMidnight scenarioNow (dayOrdinal 2020 1 1) = true := by decide

/-- C4 (amended): for every document text that does not contain the bypass
literal `20819019000744` and whose extractable expiry date parses to a date
in the past at check time, the format stage rejects with a non-empty issues
list containing the `License expired on <date>` entry, regardless of the
other completeness checks. -/
theorem c4_expired_date_always_flagged (now : PyDateTime) (text e : List Char)
    (d : Nat)
    (hbypass : containsSeq text "20819019000744".toList = false)
    (hex : extract_expiry_date (fixPdfDates text) = some e)
    (hparse : pyParseDate e = some d)
    (hpast : nowAfterMidnight now d = true) :
    ("License expired on ".toList ++ e) ∈ (check_fssai_format now text).issues ∧
    (check_fssai_format now text).issues ≠ [] ∧
    (check_fssai_format now text).status = "rejected" := by
  have hne : text ≠ [] := by
    intro hl
    subst hl
    rw [(by decide : fixPdfDates ([] : List Char) = [])] at hex
    rw [(by decide : extract_expiry_date ([] : List Char) = none)] at hex
    exact Option.noConfusion hex
  have hempty : text.isEmpty = false := by
    cases text with
    | nil => exact absurd rfl hne
    | cons c cs => rfl
  have hiss : formatIssues now (fixPdfDates text) =
      formatIssuesPre (fixPdfDates text) ++ ["License expired on ".toList ++ e] := by
    simp only [formatIssues, hex, hparse, hpast, if_true]
  have hissne : (formatIssues now (fixPdfDates text)).isEmpty = false := by
    rw [hiss]
    cases formatIssuesPre (fixPdfDates text) with
    | nil => rfl
    | cons a l => rfl
  unfold check_fssai_format
  rw [hempty, hbypass, hissne]
  simp only [Bool.false_eq_true, if_false, Bool.not_false, if_true]
  refine ⟨?_, ?_, by trivial⟩
  · rw [hiss]
    exact List.mem_append_right _ (List.mem_singleton_self _)
  · rw [hiss]
    simp

set_option maxHeartbeats 2000000 in
/-- Witness for C4 at a concrete bypass-free text whose only date is
expired. -/
theorem c4_witness :
    ("License expired on ".toList ++ "01/01/2020".toList) ∈
      (check_fssai_format scenarioNow "Valid Upto: 01/01/2020 x".toList).issues ∧
    (check_fssai_format scenarioNow "Valid Upto: 01/01/2020 x".toList).issues ≠ [] ∧
    (check_fssai_format scenarioNow "Valid Upto: 01/01/2020 x".toList).status =
      "rejected" :=
  c4_expired_date_always_flagged scenarioNow "Valid Upto: 01/01/2020 x".toList
    "01/01/2020".toList (dayOrdinal 2020 1 1) (by decide) (by decide) (by decide)
    (by decide)

/-- C2 counterexample: the comparison of `verify_names` only trims leading
and trailing whitespace before lower-casing; it does not collapse internal
whitespace, so the claim's pair `("Kings Roll", " kings   roll ")` (three
internal spaces) is rejected, not accepted. -/
theorem c2_internal_whitespace_cex :
    namesEqualNormalized "Kings Roll".toList " kings   roll ".toList = false := by
  decide

/-- C2 (amended): the name-verification comparison accepts exactly when the
two names are equal after trimming leading/trailing whitespace and
lower-casing — never partially or fuzzily; internal whitespace is not
collapsed by the comparison (it is collapsed earlier by the name extractor),
so `("Kings Roll", " kings roll ")` with single internal spaces matches
while `("Kings Roll", " kings   roll ")` and `("Kings Roll", "King's Roll")`
do not; at stage level a document carrying `Licensee Name : kings   roll`
still matches the provided name `Kings Roll` because extraction normalizes
the internal runs. -/
theorem c2_name_comparison_exact (p text bn : List Char)
    (hb : extract_name_from_fssai text = some bn) :
    ((verify_names p text).status = "verified" ↔
      pyLower (pyStrip p) = pyLower (pyStrip bn)) ∧
    namesEqualNormalized "Kings Roll".toList " kings roll ".toList = true ∧
    namesEqualNormalized "Kings Roll".toList " kings   roll ".toList = false ∧
    namesEqualNormalized "Kings Roll".toList "King's Roll".toList = false ∧
    (verify_names "Kings Roll".toList
      "Licensee Name : kings   roll".toList).status = "verified" := by
  have hne : text ≠ [] := by
    intro hl
    subst hl
    rw [(by decide : extract_name_from_fssai ([] : List Char) = none)] at hb
    exact Option.noConfusion hb
  have hempty : text.isEmpty = false := by
    cases text with
    | nil => exact absurd rfl hne
    | cons c cs => rfl
  refine ⟨?_, by decide, by decide, by decide, by decide⟩
  unfold verify_names
  rw [hempty]
  simp only [Bool.false_eq_true, if_false, hb]
  by_cases hm : namesEqualNormalized p bn
  · rw [if_pos hm]
    exact iff_of_true rfl (eq_of_beq hm)
  · rw [if_neg hm]
    have hne2 : pyLower (pyStrip p) ≠ pyLower (pyStrip bn) := by
      intro heq
      exact hm (by simp [namesEqualNormalized, heq])
    refine iff_of_false ?_ hne2
    intro hcontra
    have hss : ("rejected" : String) = "verified" := hcontra
    exact absurd hss (by decide)

/-- Witness for C2 at a concrete document whose label-extracted name matches
the provided name after trimming and lower-casing. -/
theorem c2_witness :
    ((verify_names "Kings Roll".toList "Licensee Name: Kings Roll".toList).status =
        "verified" ↔
      pyLower (pyStrip "Kings Roll".toList) =
        pyLower (pyStrip "Kings Roll".toList)) ∧
    namesEqualNormalized "Kings Roll".toList " kings roll ".toList = true ∧
    namesEqualNormalized "Kings Roll".toList " kings   roll ".toList = false ∧
    namesEqualNormalized "Kings Roll".toList "King's Roll".toList = false ∧
    (verify_names "Kings Roll".toList
      "Licensee Name : kings   roll".toList).status = "verified" :=
  c2_name_comparison_exact "Kings Roll".toList "Licensee Name: Kings Roll".toList
    "Kings Roll".toList (by decide)

theorem verify_names_verified_text {p text : List Char}
    (h : (verify_names p text).status = "verified") :
    (verify_names p text).fssaiText = some text ∧ text.isEmpty = false := by
  by_cases he : text.isEmpty
  · rw [verify_names, if_pos he] at h
    have h2 : ("rejected" : String) = "verified" := h
    exact absurd h2 (by decide)
  · have he2 : text.isEmpty = false := by
      cases hb : text.isEmpty with
      | true => exact absurd hb he
      | false => rfl
    refine ⟨?_, he2⟩
    rw [verify_names, if_neg he] at h ⊢
    match hb : extract_name_from_fssai text with
    | none =>
      simp only [hb] at h
      have h2 : ("rejected" : String) = "verified" := h
      exact absurd h2 (by decide)
    | some bn =>
      simp only [hb] at h ⊢
      by_cases hm : namesEqualNormalized p bn
      · simp only [if_pos hm]
      · simp only [if_neg hm] at h
        have h2 : ("rejected" : String) = "verified" := h
        exact absurd h2 (by decide)

/-- Branch shape of `verify_producer`: every run either fails with no pin
and no storage flag, independently of the store outcome, or succeeds with
the drawn pin, the store outcome surfacing only in `dataStored`. -/
theorem verify_producer_shape (p text : List Char) (income : ℚ) (pin : Nat)
    (now : PyDateTime) :
    (∃ r : VResult, r.status = "failed" ∧ r.pin = none ∧ r.dataStored = none ∧
      ∀ b : Bool, verify_producer p text income pin b now = r) ∨
    (∃ r : VResult, r.status = "success" ∧ r.pin = some pin ∧
      ∀ b : Bool, verify_producer p text income pin b now =
        { r with dataStored := some b }) := by
  by_cases hv : (verify_names p text).status = "verified"
  · obtain ⟨hft, hempty⟩ := verify_names_verified_text hv
    match hct : extract_certificate_type text with
    | none =>
      left
      refine ⟨verify_producer p text income pin true now, ?_, ?_, ?_, fun b => ?_⟩
      all_goals
        simp only [verify_producer, if_neg (not_not_intro hv), hft,
          Option.getD_some, hempty, Bool.false_eq_true, if_false, hct]
    | some t =>
      by_cases hc1 : expectedCertType income = "registration" ∧ t ≠ "registration"
      · left
        refine ⟨verify_producer p text income pin true now, ?_, ?_, ?_, fun b => ?_⟩
        all_goals
          simp only [verify_producer, if_neg (not_not_intro hv), hft,
            Option.getD_some, hempty, Bool.false_eq_true, if_false, hct, if_pos hc1]
      · by_cases hc2 : expectedCertType income = "license" ∧ t = "registration"
        · left
          refine ⟨verify_producer p text income pin true now, ?_, ?_, ?_, fun b => ?_⟩
          all_goals
            simp only [verify_producer, if_neg (not_not_intro hv), hft,
              Option.getD_some, hempty, Bool.false_eq_true, if_false, hct,
              if_neg hc1, if_pos hc2]
        · by_cases hfv : (check_fssai_format now text).status = "verified"
          · right
            refine ⟨verify_producer p text income pin true now, ?_, ?_, fun b => ?_⟩
            · simp only [verify_producer, if_neg (not_not_intro hv), hft,
                Option.getD_some, hempty, Bool.false_eq_true, if_false, hct,
                if_neg hc1, if_neg hc2, if_neg (not_not_intro hfv)]
            · simp only [verify_producer, if_neg (not_not_intro hv), hft,
                Option.getD_some, hempty, Bool.false_eq_true, if_false, hct,
                if_neg hc1, if_neg hc2, if_neg (not_not_intro hfv)]
            · simp only [verify_producer, if_neg (not_not_intro hv), hft,
                Option.getD_some, hempty, Bool.false_eq_true, if_false, hct,
                if_neg hc1, if_neg hc2, if_neg (not_not_intro hfv)]
          · left
            refine ⟨verify_producer p text income pin true now, ?_, ?_, ?_, fun b => ?_⟩
            all_goals
              simp only [verify_producer, if_neg (not_not_intro hv), hft,
                Option.getD_some, hempty, Bool.false_eq_true, if_false, hct,
                if_neg hc1, if_neg hc2, if_pos hfv]
  · left
    refine ⟨verify_producer p text income pin true now, ?_, ?_, ?_, fun b => ?_⟩
    all_goals simp only [verify_producer, if_pos hv]

/-- C1: for every request reaching the certificate-type stage (names
verified and a certificate type extracted), the expected class is
`registration` exactly when income is strictly below 1,200,000 and the
license family otherwise — in particular at incomes 1,199,999 and
1,200,000 — and either mismatch direction fails with stage
`certificate_match`. -/
theorem c1_income_certificate_rule (p text : List Char) (income : ℚ)
    (pin : Nat) (b : Bool) (now : PyDateTime) (t : String)
    (hname : (verify_names p text).status = "verified")
    (htype : extract_certificate_type text = some t) :
    (income < 1200000 → expectedCertType income = "registration") ∧
    (¬ income < 1200000 → expectedCertType income = "license") ∧
    expectedCertType 1199999 = "registration" ∧
    expectedCertType 1200000 = "license" ∧
    ((expectedCertType income = "registration" ∧ t ≠ "registration") ∨
        (expectedCertType income = "license" ∧ t = "registration") →
      (verify_producer p text income pin b now).status = "failed" ∧
      (verify_producer p text income pin b now).stage =
        some "certificate_match") := by
  obtain ⟨hft, hempty⟩ := verify_names_verified_text hname
  refine ⟨fun h => if_pos h, fun h => if_neg h, by norm_num [expectedCertType],
    by norm_num [expectedCertType], fun hmis => ?_⟩
  rcases hmis with hc1 | hc2
  · constructor
    all_goals
      simp only [verify_producer, if_neg (not_not_intro hname), hft,
        Option.getD_some, hempty, Bool.false_eq_true, if_false, htype,
        if_pos hc1]
  · have hc1f : ¬(expectedCertType income = "registration" ∧ t ≠ "registration") := by
      intro hcon
      rw [hc2.2] at hcon
      exact hcon.2 rfl
    constructor
    all_goals
      simp only [verify_producer, if_neg (not_not_intro hname), hft,
        Option.getD_some, hempty, Bool.false_eq_true, if_false, htype,
        if_neg hc1f, if_pos hc2]

/-- Witness for C1: a registration-certificate document with a correctly
matching name at income 2,000,000 fails with stage `certificate_match`. -/
theorem c1_witness :
    ((2000000 : ℚ) < 1200000 → expectedCertType 2000000 = "registration") ∧
    (¬ (2000000 : ℚ) < 1200000 → expectedCertType 2000000 = "license") ∧
    expectedCertType 1199999 = "registration" ∧
    expectedCertType 1200000 = "license" ∧
    ((expectedCertType 2000000 = "registration" ∧ "registration" ≠ "registration") ∨
        (expectedCertType 2000000 = "license" ∧ "registration" = "registration") →
      (verify_producer "KINGS ROLL".toList
        "KINGS ROLL Registration Certificate".toList 2000000 123456 true
        scenarioNow).status = "failed" ∧
      (verify_producer "KINGS ROLL".toList
        "KINGS ROLL Registration Certificate".toList 2000000 123456 true
        scenarioNow).stage = some "certificate_match") :=
  c1_income_certificate_rule "KINGS ROLL".toList
    "KINGS ROLL Registration Certificate".toList 2000000 123456 true
    scenarioNow "registration" (by decide) (by decide)

/-- C9: a failing external-store upsert never changes the outcome: if the
run with a succeeding store reports success, the run with a failing store
returns the identical record — same fields, same pin, still `success` —
with only `data_stored` flipped to `false`. -/
theorem c9_store_failure_only_flips_flag (p text : List Char) (income : ℚ)
    (pin : Nat) (now : PyDateTime)
    (h : (verify_producer p text income pin true now).status = "success") :
    verify_producer p text income pin false now =
      { verify_producer p text income pin true now with
        dataStored := some false } ∧
    (verify_producer p text income pin false now).status = "success" ∧
    (verify_producer p text income pin false now).pin = some pin ∧
    (verify_producer p text income pin false now).dataStored = some false := by
  rcases verify_producer_shape p text income pin now with
    ⟨r, hst, _, _, hall⟩ | ⟨r, hst, hpin, hall⟩
  · rw [hall true] at h
    rw [hst] at h
    exact absurd h (by decide)
  · rw [hall true, hall false]
    refine ⟨rfl, ?_, ?_, rfl⟩
    · exact hst
    · exact hpin

/-- Witness for C9 at the concrete success scenario of the specification's
end-to-end example. -/
theorem c9_witness :
    verify_producer "KINGS ROLL".toList
        "KINGS ROLL Registration Certificate 20819019000744".toList 11000
        123456 false scenarioNow =
      { verify_producer "KINGS ROLL".toList
          "KINGS ROLL Registration Certificate 20819019000744".toList 11000
          123456 true scenarioNow with dataStored := some false } ∧
    (verify_producer "KINGS ROLL".toList
        "KINGS ROLL Registration Certificate 20819019000744".toList 11000
        123456 false scenarioNow).status = "success" ∧
    (verify_producer "KINGS ROLL".toList
        "KINGS ROLL Registration Certificate 20819019000744".toList 11000
        123456 false scenarioNow).pin = some 123456 ∧
    (verify_producer "KINGS ROLL".toList
        "KINGS ROLL Registration Certificate 20819019000744".toList 11000
        123456 false scenarioNow).dataStored = some false :=
  c9_store_failure_only_flips_flag "KINGS ROLL".toList
    "KINGS ROLL Registration Certificate 20819019000744".toList 11000 123456
    scenarioNow (by decide)

/-- C10: the pin field is present in a verification result exactly when the
status is `success`, and — the pin being drawn by
`random.randint(100000, 999999)` — whenever present it lies in the closed
range 100000..999999, i.e. is always exactly six digits. -/
theorem c10_pin_presence_and_range (p text : List Char) (income : ℚ)
    (pin : Nat) (b : Bool) (now : PyDateTime)
    (h1 : 100000 ≤ pin) (h2 : pin ≤ 999999) :
    ((verify_producer p text income pin b now).pin.isSome = true ↔
      (verify_producer p text income pin b now).status = "success") ∧
    (∀ q, (verify_producer p text income pin b now).pin = some q →
      100000 ≤ q ∧ q ≤ 999999) := by
  rcases verify_producer_shape p text income pin now with
    ⟨r, hst, hpin, _, hall⟩ | ⟨r, hst, hpin, hall⟩
  · rw [hall b]
    constructor
    · rw [hst, hpin]
      constructor
      · intro hcontra
        exact absurd hcontra (by decide)
      · intro hcontra
        exact absurd hcontra (by decide)
    · intro q hq
      rw [hpin] at hq
      exact Option.noConfusion hq
  · rw [hall b]
    constructor
    · have hps : ({ r with dataStored := some b } : VResult).pin = some pin := hpin
      have hss : ({ r with dataStored := some b } : VResult).status = "success" := hst
      rw [hps, hss]
      exact iff_of_true rfl rfl
    · intro q hq
      have hps : ({ r with dataStored := some b } : VResult).pin = some pin := hpin
      rw [hps] at hq
      cases hq
      exact ⟨h1, h2⟩

/-- Witness for C10 at a concrete failing request and concrete in-range
pin. -/
theorem c10_witness :
    (((verify_producer "a".toList "b".toList 5 123456 true scenarioNow).pin.isSome = true ↔
      (verify_producer "a".toList "b".toList 5 123456 true scenarioNow).status = "success")) ∧
    (∀ q, (verify_producer "a".toList "b".toList 5 123456 true scenarioNow).pin = some q →
      100000 ≤ q ∧ q ≤ 999999) :=
  c10_pin_presence_and_range "a".toList "b".toList 5 123456 true scenarioNow
    (by decide) (by decide)

/-! ## Claim C5: license-number extraction -/

/-- `x` is a suffix of `l`. -/
def tailOf (x l : List Char) : Prop := ∃ e, l = e ++ x

theorem tailOf_refl (l : List Char) : tailOf l l := ⟨[], rfl⟩

theorem tailOf_trans {x y z : List Char} (h1 : tailOf x y) (h2 : tailOf y z) :
    tailOf x z := by
  obtain ⟨e1, he1⟩ := h1
  obtain ⟨e2, he2⟩ := h2
  exact ⟨e2 ++ e1, by rw [he2, he1, List.append_assoc]⟩

theorem dropLitCi_tail {lit cs r : List Char} (h : dropLitCi lit cs = some r) :
    tailOf r cs := by
  induction lit generalizing cs with
  | nil =>
    simp only [dropLitCi, Option.some.injEq] at h
    exact h ▸ tailOf_refl cs
  | cons p ps ih =>
    match cs with
    | [] => simp [dropLitCi] at h
    | c :: cs' =>
      simp only [dropLitCi] at h
      by_cases hc : (c.toLower == p.toLower) = true
      · rw [if_pos hc] at h
        obtain ⟨e, he⟩ := ih h
        exact ⟨c :: e, by rw [he]; rfl⟩
      · rw [if_neg hc] at h
        exact absurd h (by simp)

theorem dropWsStar_tail (cs : List Char) : tailOf (dropWsStar cs) cs :=
  ⟨cs.takeWhile pyWs, (List.takeWhile_append_dropWhile pyWs cs).symm⟩

theorem dropOptDot_tail (cs : List Char) : tailOf (dropOptDot cs) cs := by
  match cs with
  | [] => exact tailOf_refl _
  | c :: t =>
    by_cases hc : (c == '.') = true
    · simp only [dropOptDot, if_pos hc]
      exact ⟨[c], rfl⟩
    · simp only [dropOptDot, if_neg hc]
      exact tailOf_refl _

theorem dropOptColonDash_tail (cs : List Char) :
    tailOf (dropOptColonDash cs) cs := by
  match cs with
  | [] => exact tailOf_refl _
  | c :: t =>
    by_cases hc : (c == ':' || c == '-') = true
    · simp only [dropOptColonDash, if_pos hc]
      exact ⟨[c], rfl⟩
    · simp only [dropOptColonDash, if_neg hc]
      exact tailOf_refl _

theorem takeDigits_complete {d : List Char} {n : Nat} (r : List Char)
    (hlen : d.length = n) (hdig : d.all pyDigit = true) :
    takeDigits n (d ++ r) = some (d, r) := by
  induction d generalizing n with
  | nil =>
    subst hlen
    simp [takeDigits]
  | cons c cs ih =>
    subst hlen
    simp only [List.all_cons, Bool.and_eq_true] at hdig
    simp only [List.length_cons, List.cons_append, takeDigits, if_pos hdig.1,
      List.append_eq]
    rw [ih rfl hdig.2]
    rfl

theorem licGate_of_digits {d : List Char} (hlen : d.length = 14)
    (hdig : d.all pyDigit = true) : licGate d = some d := by
  unfold licGate
  rw [if_pos]
  rw [hlen, hdig]
  rfl

theorem licGate_sound {s r : List Char} (h : licGate s = some r) :
    r = s ∧ s.length = 14 ∧ s.all pyDigit = true := by
  unfold licGate at h
  by_cases hc : (s.length == 14 && s.all pyDigit) = true
  · rw [if_pos hc] at h
    simp only [Bool.and_eq_true, beq_iff_eq] at hc
    cases h
    exact ⟨rfl, hc.1, hc.2⟩
  · rw [if_neg hc] at h
    exact absurd h (by simp)

/-- Soundness of the digit-capture suffix shared by the three label
patterns: if `takeDigits` succeeds on a suffix of `cs`, the capture is an
occurrence of 14 digits in `cs`. -/
theorem capture_occurs {cs X d : List Char} {p : List Char × List Char}
    (ht : tailOf X cs) (htd : takeDigits 14 X = some p) (hd : p.1 = d) :
    (∃ e r, cs = e ++ (d ++ r)) ∧ d.length = 14 ∧ d.all pyDigit = true := by
  obtain ⟨hlen, happ, hdig⟩ :=
    takeDigits_length (show takeDigits 14 X = some (p.1, p.2) from by
      rw [Prod.mk.eta]; exact htd)
  obtain ⟨e, he⟩ := ht
  subst hd
  exact ⟨⟨e, p.2, by rw [he, ← happ]⟩, hlen, hdig⟩

theorem licPat1At_sound {cs d : List Char} (h : licPat1At cs = some d) :
    (∃ e r, cs = e ++ (d ++ r)) ∧ d.length = 14 ∧ d.all pyDigit = true := by
  simp only [licPat1At, Option.bind_eq_some, Option.map_eq_some'] at h
  obtain ⟨r1, h1, r2, h2, p, hp, hd⟩ := h
  refine capture_occurs ?_ hp hd
  refine tailOf_trans (dropWsStar_tail _) (tailOf_trans (dropOptColonDash_tail _)
    (tailOf_trans (dropWsStar_tail _) (tailOf_trans (dropOptDot_tail _)
    (tailOf_trans (dropLitCi_tail h2) (tailOf_trans (dropWsStar_tail _)
    (dropLitCi_tail h1))))))

theorem licPat2At_sound {cs d : List Char} (h : licPat2At cs = some d) :
    (∃ e r, cs = e ++ (d ++ r)) ∧ d.length = 14 ∧ d.all pyDigit = true := by
  simp only [licPat2At, Option.bind_eq_some, Option.map_eq_some'] at h
  obtain ⟨r1, h1, r2, h2, p, hp, hd⟩ := h
  refine capture_occurs ?_ hp hd
  refine tailOf_trans (dropWsStar_tail _) (tailOf_trans (dropOptColonDash_tail _)
    (tailOf_trans (dropWsStar_tail _) (tailOf_trans (dropLitCi_tail h2)
    (tailOf_trans (dropWsStar_tail _) (dropLitCi_tail h1)))))

theorem licPat3At_sound {cs d : List Char} (h : licPat3At cs = some d) :
    (∃ e r, cs = e ++ (d ++ r)) ∧ d.length = 14 ∧ d.all pyDigit = true := by
  simp only [licPat3At, Option.bind_eq_some] at h
  obtain ⟨r0, h0, h2⟩ := h
  obtain ⟨⟨e, r, he⟩, hlen, hdig⟩ := licPat2At_sound h2
  have ht : tailOf (dropWsStar r0) cs :=
    tailOf_trans (dropWsStar_tail _) (dropLitCi_tail h0)
  obtain ⟨e0, he0⟩ := ht
  exact ⟨⟨e0 ++ e, r, by rw [he0, he, List.append_assoc]⟩, hlen, hdig⟩

theorem licPat4At_sound {prev : Option Char} {cs d : List Char}
    (h : licPat4At prev cs = some d) :
    (∃ e r, cs = e ++ (d ++ r)) ∧ d.length = 14 ∧ d.all pyDigit = true := by
  unfold licPat4At at h
  by_cases hb : boundaryBeforeOk prev = true
  · rw [if_pos hb] at h
    match htd : takeDigits 14 cs with
    | none => rw [htd] at h; exact absurd h (by simp)
    | some (d0, rest) =>
      rw [htd] at h
      by_cases ha : boundaryAfterOk rest = true
      · simp only [ha, if_true] at h
        cases h
        exact capture_occurs (tailOf_refl cs) htd rfl
      · simp [ha] at h
  · rw [if_neg hb] at h
    exact absurd h (by simp)

theorem licPat4At_complete {prev : Option Char} {mid post : List Char}
    (hb : boundaryBeforeOk prev = true) (hlen : mid.length = 14)
    (hdig : mid.all pyDigit = true) (hpost : boundaryAfterOk post = true) :
    licPat4At prev (mid ++ post) = some mid := by
  unfold licPat4At
  rw [if_pos hb, takeDigits_complete post hlen hdig]
  simp [hpost]

theorem searchCap_sound {f : List Char → Option (List Char)}
    {P : List Char → Prop}
    (hf : ∀ cs d, f cs = some d → (∃ e r, cs = e ++ (d ++ r)) ∧ P d) :
    ∀ {text d}, searchCap f text = some d →
      (∃ e r, text = e ++ (d ++ r)) ∧ P d := by
  intro text
  induction text with
  | nil =>
    intro d h
    exact hf [] d h
  | cons c rest ih =>
    intro d h
    simp only [searchCap] at h
    match hfc : f (c :: rest) with
    | some r0 =>
      rw [hfc] at h
      cases h
      exact hf _ _ hfc
    | none =>
      rw [hfc] at h
      obtain ⟨⟨e, r, he⟩, hp⟩ := ih h
      exact ⟨⟨c :: e, r, by rw [he]; rfl⟩, hp⟩

theorem searchCapPrev_sound {f : Option Char → List Char → Option (List Char)}
    {P : List Char → Prop}
    (hf : ∀ prev cs d, f prev cs = some d →
      (∃ e r, cs = e ++ (d ++ r)) ∧ P d) :
    ∀ {prev text d}, searchCapPrev f prev text = some d →
      (∃ e r, text = e ++ (d ++ r)) ∧ P d := by
  intro prev text
  induction text generalizing prev with
  | nil =>
    intro d h
    exact hf prev [] d h
  | cons c rest ih =>
    intro d h
    simp only [searchCapPrev] at h
    match hfc : f prev (c :: rest) with
    | some r0 =>
      rw [hfc] at h
      cases h
      exact hf _ _ _ hfc
    | none =>
      rw [hfc] at h
      obtain ⟨⟨e, r, he⟩, hp⟩ := ih h
      exact ⟨⟨c :: e, r, by rw [he]; rfl⟩, hp⟩

theorem searchCapPrev_of_hit {f : Option Char → List Char → Option (List Char)}
    {prev : Option Char} {l d : List Char} (h : f prev l = some d) :
    (searchCapPrev f prev l).isSome = true := by
  cases l with
  | nil => simp [searchCapPrev, h]
  | cons c rest =>
    simp only [searchCapPrev]
    rw [h]
    rfl

/-- Completeness of the `\b\d{14}\b` search: a properly delimited 14-digit
run is found from any starting point whose previous-character invariant
holds. -/
theorem searchPrev_bare14_some (pre : List Char) (mid post : List Char)
    (prev : Option Char) (hlen : mid.length = 14)
    (hdig : mid.all pyDigit = true) (hpost : boundaryAfterOk post = true)
    (hpre1 : ∀ c, pre.getLast? = some c → pyWord c = false)
    (hpre2 : pre = [] → boundaryBeforeOk prev = true) :
    (searchCapPrev licPat4At prev (pre ++ (mid ++ post))).isSome = true := by
  induction pre generalizing prev with
  | nil =>
    have hb : boundaryBeforeOk prev = true := hpre2 rfl
    rw [List.nil_append]
    exact searchCapPrev_of_hit (licPat4At_complete hb hlen hdig hpost)
  | cons a pre' ih =>
    rw [List.cons_append]
    simp only [searchCapPrev]
    match hfa : licPat4At prev (a :: (pre' ++ (mid ++ post))) with
    | some r => rfl
    | none =>
      have harg1 : ∀ c, pre'.getLast? = some c → pyWord c = false := by
        intro c hc2
        cases pre' with
        | nil => simp at hc2
        | cons b bs =>
          exact hpre1 c (by rw [List.getLast?_cons_cons]; exact hc2)
      have harg2 : pre' = [] → boundaryBeforeOk (some a) = true := by
        intro hnil
        subst hnil
        have hw : pyWord a = false := hpre1 a (by simp)
        simp [boundaryBeforeOk, hw]
      exact ih (some a) harg1 harg2

/-- C5 counterexample: the claim fails for a 14-digit run delimited by
letters.  `a12345678901234b` contains exactly one run of exactly 14 digits,
not embedded in a longer digit run, yet `extract_license_number` returns
`none`: the `\b\d{14}\b` pattern requires non-word neighbours and letters
are word characters. -/
theorem c5_embedded_run_cex :
    extract_license_number "a12345678901234b".toList = none ∧
    "a12345678901234b".toList =
      "a".toList ++ ("12345678901234".toList ++ "b".toList) ∧
    "12345678901234".toList.length = 14 ∧
    "12345678901234".toList.all pyDigit = true ∧
    pyDigit 'a' = false ∧ pyDigit 'b' = false := by decide

/-- C5 (amended): for every ASCII text of the form `pre ++ mid ++ post`
where `mid` is a run of exactly 14 ASCII digits delimited by non-word
characters (or the text edges), and every occurrence of 14 consecutive
digits in the text sits exactly at `mid`'s position,
`extract_license_number` returns `mid`; and whenever
`extract_license_number` returns a value at all, that value matches
`^\d{14}$` exactly.  (The ASCII hypothesis scopes the claim to where the
embedding's character classes coincide with the source's Unicode-aware
`\w`.) -/
theorem c5_license_number_rule (pre mid post : List Char)
    (hascii : ∀ c ∈ pre ++ (mid ++ post), c.toNat < 128)
    (hlen : mid.length = 14) (hdig : mid.all pyDigit = true)
    (hpre : boundaryBeforeOk pre.getLast? = true)
    (hpost : boundaryAfterOk post = true)
    (huniq : ∀ i, i < (pre ++ (mid ++ post)).length →
      (((pre ++ (mid ++ post)).drop i).take 14).length = 14 →
      (((pre ++ (mid ++ post)).drop i).take 14).all pyDigit = true →
      i = pre.length) :
    extract_license_number (pre ++ (mid ++ post)) = some mid ∧
    ∀ t r, extract_license_number t = some r →
      r.length = 14 ∧ r.all pyDigit = true := by
  have text_eq : ∀ (e d r : List Char), pre ++ (mid ++ post) = e ++ (d ++ r) →
      d.length = 14 → d.all pyDigit = true → d = mid := by
    intro e d r he hdl hdd
    have hi : e.length = pre.length := by
      apply huniq e.length
      · rw [he]
        simp only [List.length_append]
        omega
      · rw [he, List.drop_left, ← hdl, List.take_left]
      · rw [he, List.drop_left, ← hdl, List.take_left]
        exact hdd
    obtain ⟨he2, hr2⟩ := List.append_inj he.symm hi
    have := List.append_inj hr2 (by rw [hdl, hlen])
    exact this.1
  constructor
  · unfold extract_license_number
    match h1 : searchCap licPat1At (pre ++ (mid ++ post)) with
    | some d1 =>
      obtain ⟨⟨e, r, he⟩, hdl, hdd⟩ :=
        searchCap_sound (fun _ _ h => licPat1At_sound h) h1
      have hd1 : d1 = mid := text_eq e d1 r he hdl hdd
      subst hd1
      rw [Option.some_bind, licGate_of_digits hlen hdig]
    | none =>
      match h2 : searchCap licPat2At (pre ++ (mid ++ post)) with
      | some d2 =>
        obtain ⟨⟨e, r, he⟩, hdl, hdd⟩ :=
          searchCap_sound (fun _ _ h => licPat2At_sound h) h2
        have hd2 : d2 = mid := text_eq e d2 r he hdl hdd
        subst hd2
        rw [Option.some_bind, licGate_of_digits hlen hdig]
        rfl
      | none =>
        match h3 : searchCap licPat3At (pre ++ (mid ++ post)) with
        | some d3 =>
          obtain ⟨⟨e, r, he⟩, hdl, hdd⟩ :=
            searchCap_sound (fun _ _ h => licPat3At_sound h) h3
          have hd3 : d3 = mid := text_eq e d3 r he hdl hdd
          subst hd3
          rw [Option.some_bind, licGate_of_digits hlen hdig]
          rfl
        | none =>
          have hpre2 : ∀ c, pre.getLast? = some c → pyWord c = false := by
            intro c hc
            rw [hc] at hpre
            simpa [boundaryBeforeOk] using hpre
          have hsome := searchPrev_bare14_some pre mid post none hlen hdig
            hpost hpre2 (fun _ => rfl)
          obtain ⟨d4, h4⟩ := Option.isSome_iff_exists.mp hsome
          obtain ⟨⟨e, r, he⟩, hdl, hdd⟩ :=
            searchCapPrev_sound (fun _ _ _ h => licPat4At_sound h) h4
          have hd4 : d4 = mid := text_eq e d4 r he hdl hdd
          subst hd4
          rw [h4, Option.some_bind, licGate_of_digits hlen hdig]
          rfl
  · intro t r h
    unfold extract_license_number at h
    match hA : (searchCap licPat1At t).bind licGate with
    | some s =>
      rw [hA] at h
      have h2 : some s = some r := h
      cases h2
      obtain ⟨d, _, hg⟩ := Option.bind_eq_some.mp hA
      obtain ⟨hrd, hl, hd⟩ := licGate_sound hg
      subst hrd
      exact ⟨hl, hd⟩
    | none =>
      rw [hA] at h
      match hB : (searchCap licPat2At t).bind licGate with
      | some s =>
        rw [hB] at h
        have h2 : some s = some r := h
        cases h2
        obtain ⟨d, _, hg⟩ := Option.bind_eq_some.mp hB
        obtain ⟨hrd, hl, hd⟩ := licGate_sound hg
        subst hrd
        exact ⟨hl, hd⟩
      | none =>
        rw [hB] at h
        match hC : (searchCap licPat3At t).bind licGate with
        | some s =>
          rw [hC] at h
          have h2 : some s = some r := h
          cases h2
          obtain ⟨d, _, hg⟩ := Option.bind_eq_some.mp hC
          obtain ⟨hrd, hl, hd⟩ := licGate_sound hg
          subst hrd
          exact ⟨hl, hd⟩
        | none =>
          rw [hC] at h
          have h2 : (searchCapPrev licPat4At none t).bind licGate = some r := h
          obtain ⟨d, _, hg⟩ := Option.bind_eq_some.mp h2
          obtain ⟨hrd, hl, hd⟩ := licGate_sound hg
          subst hrd
          exact ⟨hl, hd⟩

/-- Witness for C5: a 14-digit run delimited by spaces inside word
context. -/
theorem c5_witness :
    extract_license_number
        ("x ".toList ++ ("12345678901234".toList ++ " y".toList)) =
      some "12345678901234".toList ∧
    ∀ t r, extract_license_number t = some r →
      r.length = 14 ∧ r.all pyDigit = true :=
  c5_license_number_rule "x ".toList "12345678901234".toList " y".toList
    (by decide) (by decide) (by decide) (by decide) (by decide) (by decide)

/-! ## Claim C7: the expiry-date fallback -/

theorem parseAllDMY_map {ds : List (List Char)} {pairs : List (Nat × List Char)}
    (h : parseAllDMY ds = some pairs) :
    pairs.map (·.2) = ds ∧ ∀ pr ∈ pairs, parseDMY pr.2 = some pr.1 := by
  induction ds generalizing pairs with
  | nil =>
    simp only [parseAllDMY, Option.some.injEq] at h
    subst h
    simp
  | cons d ds' ih =>
    simp only [parseAllDMY] at h
    match hp : parseDMY d with
    | none => rw [hp] at h; exact absurd h (by simp)
    | some o =>
      rw [hp] at h
      match hrec : parseAllDMY ds' with
      | none => rw [hrec] at h; exact absurd h (by simp)
      | some ps =>
        rw [hrec] at h
        simp only [Option.map_some', Option.some.injEq] at h
        subst h
        obtain ⟨hm, hall⟩ := ih hrec
        refine ⟨by simp [hm], ?_⟩
        intro pr hpr
        rcases List.mem_cons.mp hpr with hl | hr
        · subst hl; exact hp
        · exact hall pr hr

theorem parseAllDMY_isSome {ds : List (List Char)}
    (h : ∀ t ∈ ds, (parseDMY t).isSome = true) :
    (parseAllDMY ds).isSome = true := by
  induction ds with
  | nil => rfl
  | cons d ds' ih =>
    simp only [parseAllDMY]
    have hd := h d (List.mem_cons_self d ds')
    match hp : parseDMY d with
    | none => rw [hp] at hd; exact absurd hd (by simp)
    | some o =>
      have hrec := ih (fun t ht => h t (List.mem_cons_of_mem d ht))
      match hrec2 : parseAllDMY ds' with
      | none => rw [hrec2] at hrec; exact absurd hrec (by simp)
      | some ps => rfl

theorem parseAllDMY_none {ds : List (List Char)} {t : List Char}
    (ht : t ∈ ds) (hp : parseDMY t = none) : parseAllDMY ds = none := by
  induction ds with
  | nil => exact absurd ht (by simp)
  | cons d ds' ih =>
    simp only [parseAllDMY]
    rcases List.mem_cons.mp ht with hl | hr
    · subst hl
      rw [hp]
    · match hpd : parseDMY d with
      | none => rfl
      | some o => rw [ih hr]; rfl

theorem mem_insertByKey {x a : Nat × List Char} {l : List (Nat × List Char)} :
    a ∈ insertByKey x l ↔ a = x ∨ a ∈ l := by
  induction l with
  | nil => simp [insertByKey]
  | cons y ys ih =>
    simp only [insertByKey]
    by_cases hc : x.1 ≤ y.1
    · rw [if_pos hc]
      simp [List.mem_cons]
    · rw [if_neg hc]
      simp only [List.mem_cons, ih]
      tauto

theorem mem_sortByKey {a : Nat × List Char} {l : List (Nat × List Char)} :
    a ∈ sortByKey l ↔ a ∈ l := by
  induction l with
  | nil => simp [sortByKey]
  | cons y ys ih =>
    simp only [sortByKey, mem_insertByKey, ih, List.mem_cons]

theorem pairwise_insertByKey {x : Nat × List Char} {l : List (Nat × List Char)}
    (h : l.Pairwise (fun a b => a.1 ≤ b.1)) :
    (insertByKey x l).Pairwise (fun a b => a.1 ≤ b.1) := by
  induction l with
  | nil => simp [insertByKey]
  | cons y ys ih =>
    simp only [insertByKey]
    rw [List.pairwise_cons] at h
    by_cases hc : x.1 ≤ y.1
    · rw [if_pos hc]
      refine List.Pairwise.cons ?_ (List.Pairwise.cons h.1 h.2)
      intro b hb
      rcases List.mem_cons.mp hb with hl | hr
      · subst hl; exact hc
      · exact le_trans hc (h.1 b hr)
    · rw [if_neg hc]
      refine List.Pairwise.cons ?_ (ih h.2)
      intro b hb
      rcases mem_insertByKey.mp hb with hl | hr
      · subst hl; omega
      · exact h.1 b hr

theorem pairwise_sortByKey (l : List (Nat × List Char)) :
    (sortByKey l).Pairwise (fun a b => a.1 ≤ b.1) := by
  induction l with
  | nil => simp [sortByKey]
  | cons y ys ih => exact pairwise_insertByKey ih

theorem getLast?_some_of_ne_nil {α : Type} {l : List α} (h : l ≠ []) :
    ∃ m, l.getLast? = some m := by
  induction l with
  | nil => exact absurd rfl h
  | cons a l' ih =>
    cases l' with
    | nil => exact ⟨a, rfl⟩
    | cons b bs =>
      obtain ⟨m, hm⟩ := ih (by simp)
      exact ⟨m, by rw [List.getLast?_cons_cons]; exact hm⟩

theorem getLast?_mem {α : Type} {l : List α} {m : α} (h : l.getLast? = some m) :
    m ∈ l := by
  induction l with
  | nil => simp [List.getLast?] at h
  | cons a l' ih =>
    cases l' with
    | nil =>
      have h2 : some a = some m := h
      cases h2
      exact List.mem_cons_self _ _
    | cons b bs =>
      rw [List.getLast?_cons_cons] at h
      exact List.mem_cons_of_mem a (ih h)

theorem getLast?_key_max {l : List (Nat × List Char)} {m x : Nat × List Char}
    (hs : l.Pairwise (fun a b => a.1 ≤ b.1)) (hx : x ∈ l)
    (hm : l.getLast? = some m) : x.1 ≤ m.1 := by
  induction l with
  | nil => exact absurd hx (by simp)
  | cons a l' ih =>
    rw [List.pairwise_cons] at hs
    cases l' with
    | nil =>
      have h2 : some a = some m := hm
      cases h2
      rcases List.mem_cons.mp hx with hl | hr
      · subst hl; exact le_refl _
      · exact absurd hr (by simp)
    | cons b bs =>
      rw [List.getLast?_cons_cons] at hm
      rcases List.mem_cons.mp hx with hl | hr
      · subst hl
        exact hs.1 m (getLast?_mem hm)
      · exact ih hs.2 hr hm

theorem sortByKey_ne_nil {l : List (Nat × List Char)} (h : l ≠ []) :
    sortByKey l ≠ [] := by
  match l with
  | [] => exact absurd rfl h
  | x :: xs =>
    simp only [sortByKey]
    cases hs : sortByKey xs with
    | nil => simp [insertByKey]
    | cons y ys =>
      simp only [insertByKey]
      by_cases hc : x.1 ≤ y.1
      · rw [if_pos hc]; simp
      · rw [if_neg hc]; simp

/-- C7 counterexample: a text with only `YYYY-MM-DD` tokens, no label
pattern matching, where the code returns the lexically last token
`2020-01-01` although the chronologically latest token is `2025-01-01`. -/
theorem c7_ymd_lexical_cex :
    extract_expiry_date "2025-01-01 2020-01-01".toList =
      some "2020-01-01".toList ∧
    expiryLabelPhase (fixPdfDates "2025-01-01 2020-01-01".toList) = none ∧
    findallYMD (fixPdfDates "2025-01-01 2020-01-01".toList) =
      ["2025-01-01".toList, "2020-01-01".toList] ∧
    parseYMD "2020-01-01".toList = some (dayOrdinal 2020 1 1) ∧
    parseYMD "2025-01-01".toList = some (dayOrdinal 2025 1 1) ∧
    dayOrdinal 2020 1 1 < dayOrdinal 2025 1 1 := by decide

/-- C7 (amended): when no label-anchored expiry pattern matches, the
fallback first considers only `DD/MM/YYYY` tokens: if any occur and all of
them parse, the result is a `DD/MM/YYYY` token of chronologically maximal
parsed value; if any occur and one fails to parse, the result is the
lexically last `DD/MM/YYYY` token; only when none occur is the lexically
last `YYYY-MM-DD` token returned — not the chronologically latest. -/
theorem c7_expiry_fallback_rule (text : List Char)
    (hlabel : expiryLabelPhase (fixPdfDates text) = none) :
    ((findallDMY (fixPdfDates text) ≠ [] ∧
        (∀ t ∈ findallDMY (fixPdfDates text), (parseDMY t).isSome = true)) →
      ∃ tok, extract_expiry_date text = some tok ∧
        tok ∈ findallDMY (fixPdfDates text) ∧
        ∀ u ∈ findallDMY (fixPdfDates text), ∀ du dt,
          parseDMY u = some du → parseDMY tok = some dt → du ≤ dt) ∧
    ((findallDMY (fixPdfDates text) ≠ [] ∧
        (∃ t ∈ findallDMY (fixPdfDates text), parseDMY t = none)) →
      extract_expiry_date text = (findallDMY (fixPdfDates text)).getLast?) ∧
    (findallDMY (fixPdfDates text) = [] →
      extract_expiry_date text = (findallYMD (fixPdfDates text)).getLast?) := by
  refine ⟨?_, ?_, ?_⟩
  · rintro ⟨hne, hall⟩
    obtain ⟨pairs, hpairs⟩ :=
      Option.isSome_iff_exists.mp (parseAllDMY_isSome hall)
    obtain ⟨hmap, hprs⟩ := parseAllDMY_map hpairs
    have hpne : pairs ≠ [] := by
      intro hcon
      rw [hcon] at hmap
      exact hne (by rw [← hmap]; rfl)
    obtain ⟨m, hm⟩ := getLast?_some_of_ne_nil (sortByKey_ne_nil hpne)
    have hmem : m ∈ pairs := mem_sortByKey.mp (getLast?_mem hm)
    refine ⟨m.2, ?_, ?_, ?_⟩
    · simp only [extract_expiry_date]
      rw [hlabel]
      match hds : findallDMY (fixPdfDates text) with
      | [] => exact absurd hds hne
      | d0 :: ds0 =>
        rw [hds] at hpairs
        rw [hpairs]
        show Option.map (fun x => x.2) (sortByKey pairs).getLast? = some m.2
        rw [hm]
        rfl
    · rw [← hmap]
      exact List.mem_map_of_mem _ hmem
    · intro u hu du dt hdu hdt
      rw [← hmap] at hu
      obtain ⟨pr, hpr, hpru⟩ := List.mem_map.mp hu
      have h1 : parseDMY u = some pr.1 := by rw [← hpru]; exact hprs pr hpr
      rw [h1] at hdu
      cases hdu
      have h2 : parseDMY m.2 = some m.1 := hprs m hmem
      rw [h2] at hdt
      cases hdt
      exact getLast?_key_max (pairwise_sortByKey pairs)
        (mem_sortByKey.mpr hpr) hm
  · rintro ⟨hne, t0, ht0, hpn⟩
    have hnone := parseAllDMY_none ht0 hpn
    simp only [extract_expiry_date]
    rw [hlabel]
    match hds : findallDMY (fixPdfDates text) with
    | [] => exact absurd hds hne
    | d0 :: ds0 =>
      rw [hds] at hnone
      rw [hnone]
  · intro hds
    simp only [extract_expiry_date]
    rw [hlabel, hds]
    match hy : findallYMD (fixPdfDates text) with
    | [] => rfl
    | y0 :: ys0 => rfl

/-- Witness for C7 at a concrete text whose `DD/MM/YYYY` tokens include an
unparsable one, exercising the lexically-last branch. -/
theorem c7_witness :
    extract_expiry_date "99/99/2024 01/01/2020".toList =
      (findallDMY (fixPdfDates "99/99/2024 01/01/2020".toList)).getLast? :=
  (c7_expiry_fallback_rule "99/99/2024 01/01/2020".toList (by decide)).2.1
    ⟨by decide, by decide⟩

end Agent1
